import Mathlib

/-
Verification of the workflow controller of the YouTube-Shorts creator
repository.  The definitions below are a shallow embedding of
src/app/agent.py (controller, response interpreter, approval predicate,
workspace provisioning) and src/app/agents/image_generator.py (the
per-scene image loop).  External LLM calls are modelled as oracles: a
sub-agent run is "whatever value the step writes to its output key".
-/

namespace YTShorts

/-- Values stored in the shared session state: the subset of Python objects
the workflow reads and writes (None, bool, int, str, list, dict).  JSON
numbers are modelled as integers; floats are not modelled. -/
inductive JsonVal where
  | null
  | bool (b : Bool)
  | num (n : Int)
  | str (s : String)
  | arr (xs : List JsonVal)
  | obj (kvs : List (String × JsonVal))

/-- Python truthiness (`if value:`) for the modelled values. -/
def truthy : JsonVal → Bool
  | .null => false
  | .bool b => b
  | .num n => n != 0
  | .str s => !s.isEmpty
  | .arr xs => !xs.isEmpty
  | .obj kvs => !kvs.isEmpty

/-- Whitespace characters removed by Python `str.strip()`. -/
def pyIsWs (c : Char) : Bool :=
  c == ' ' || c == '\t' || c == '\n' || c == '\r' || c == '\x0b' || c == '\x0c'

/-- Drop leading whitespace (the left half of `str.strip()`, and the
whitespace skipping done by `json.loads`). -/
def stripLeft (cs : List Char) : List Char := cs.dropWhile pyIsWs

/-- Drop trailing whitespace. -/
def stripRight (cs : List Char) : List Char :=
  (cs.reverse.dropWhile pyIsWs).reverse

/-- Python `str.strip()` on a character list. -/
def pyStripL (cs : List Char) : List Char := stripRight (stripLeft cs)

/-- Python `str.strip()`. -/
def pyStrip (s : String) : String := String.mk (pyStripL s.toList)

/-- ASCII lowercasing of one character, as Python `str.lower()` does for
ASCII input (non-ASCII letters are left unchanged in this model). -/
def pyLowerChar (c : Char) : Char :=
  if 'A' ≤ c ∧ c ≤ 'Z' then Char.ofNat (c.toNat + 32) else c

/-- Python `str.lower()`. -/
def pyLower (s : String) : String := String.mk (s.toList.map pyLowerChar)

/-- Python `str.replace(" ", "_")` (single-character replacement). -/
def replaceSpaceByUnderscore (s : String) : String :=
  String.mk (s.toList.map (fun c => if c = ' ' then '_' else c))

/-- The fixed approval vocabulary of `_is_user_approval`
(src/app/agent.py line 113). -/
def approvalWords : List String := ["yes", "approve", "good", "perfect", "ok", "okay"]

/-- Core of `_is_user_approval`: `user_input.lower().strip() in [...]`. -/
def isUserApprovalStr (s : String) : Bool :=
  approvalWords.contains (pyStrip (pyLower s))

/-- `_is_user_approval` (src/app/agent.py lines 109-113) applied to the
extracted `user_input` value.  A falsy value is not approval; calling
`.lower()` on a truthy non-string raises `AttributeError`, modelled as
`.error`. -/
def isUserApproval (user_input : JsonVal) : Except Unit Bool :=
  if truthy user_input then
    match user_input with
    | .str s => .ok (isUserApprovalStr s)
    | _ => .error ()
  else .ok false

/-- Escape sequences accepted inside a JSON string literal. -/
def escChar : Char → Option Char
  | '"' => some '"'
  | '\\' => some '\\'
  | '/' => some '/'
  | 'b' => some '\x08'
  | 'f' => some '\x0c'
  | 'n' => some '\n'
  | 'r' => some '\r'
  | 't' => some '\t'
  | _ => none

/-- Parse the body of a JSON string literal (after the opening quote) up to
and including the closing quote; returns the decoded characters and the
remaining input. -/
def parseStrBody : List Char → Option (List Char × List Char)
  | [] => none
  | '"' :: rest => some ([], rest)
  | '\\' :: rest =>
    match rest with
    | [] => none
    | e :: rest2 =>
      match escChar e with
      | none => none
      | some ec =>
        match parseStrBody rest2 with
        | none => none
        | some (body, rem) => some (ec :: body, rem)
  | c :: rest =>
    if c.toNat < 32 then none
    else
      match parseStrBody rest with
      | none => none
      | some (body, rem) => some (c :: body, rem)

/-- Decimal value of a digit string. -/
def digitsToNat (ds : List Char) : Nat :=
  ds.foldl (fun acc c => acc * 10 + (c.toNat - 48)) 0

/-- Parse a JSON integer (an optional minus sign and a digit run). -/
def parseNumber (cs : List Char) : Option (JsonVal × List Char) :=
  match cs with
  | '-' :: rest =>
    if (rest.takeWhile Char.isDigit).isEmpty then none
    else some (.num (-(digitsToNat (rest.takeWhile Char.isDigit) : Int)),
      rest.dropWhile Char.isDigit)
  | _ =>
    if (cs.takeWhile Char.isDigit).isEmpty then none
    else some (.num ((digitsToNat (cs.takeWhile Char.isDigit) : Int)),
      cs.dropWhile Char.isDigit)

mutual

/-- Recursive-descent JSON value parser (fuelled).  Expects the input to
start at the first character of a value; returns the value and the
remaining input. -/
def parseValue : Nat → List Char → Option (JsonVal × List Char)
  | 0, _ => none
  | Nat.succ f, cs =>
    match cs with
    | [] => none
    | '{' :: rest =>
      match stripLeft rest with
      | '}' :: rest2 => some (.obj [], rest2)
      | cs2 => parseMembers f [] cs2
    | '[' :: rest =>
      match stripLeft rest with
      | ']' :: rest2 => some (.arr [], rest2)
      | cs2 => parseItems f [] cs2
    | '"' :: rest =>
      match parseStrBody rest with
      | none => none
      | some (body, rem) => some (.str (String.mk body), rem)
    | 't' :: rest =>
      if rest.take 3 = ['r', 'u', 'e'] then some (.bool true, rest.drop 3) else none
    | 'f' :: rest =>
      if rest.take 4 = ['a', 'l', 's', 'e'] then some (.bool false, rest.drop 4) else none
    | 'n' :: rest =>
      if rest.take 3 = ['u', 'l', 'l'] then some (.null, rest.drop 3) else none
    | c :: rest =>
      if c = '-' || c.isDigit then parseNumber (c :: rest) else none

/-- Parse the members of a JSON object, starting at the first key
(whitespace already skipped), accumulating parsed pairs. -/
def parseMembers : Nat → List (String × JsonVal) → List Char →
    Option (JsonVal × List Char)
  | 0, _, _ => none
  | Nat.succ f, acc, cs =>
    match cs with
    | '"' :: rest =>
      match parseStrBody rest with
      | none => none
      | some (key, rest2) =>
        match stripLeft rest2 with
        | ':' :: rest3 =>
          match parseValue f (stripLeft rest3) with
          | none => none
          | some (v, rest4) =>
            match stripLeft rest4 with
            | ',' :: rest5 => parseMembers f (acc ++ [(String.mk key, v)]) (stripLeft rest5)
            | '}' :: rest5 => some (.obj (acc ++ [(String.mk key, v)]), rest5)
            | _ => none
        | _ => none
    | _ => none

/-- Parse the items of a JSON array, starting at the first item,
accumulating parsed values. -/
def parseItems : Nat → List JsonVal → List Char → Option (JsonVal × List Char)
  | 0, _, _ => none
  | Nat.succ f, acc, cs =>
    match parseValue f cs with
    | none => none
    | some (v, rest) =>
      match stripLeft rest with
      | ',' :: rest2 => parseItems f (acc ++ [v]) (stripLeft rest2)
      | ']' :: rest2 => some (.arr (acc ++ [v]), rest2)
      | _ => none

end

/-- `json.loads`: skip leading whitespace, parse one value, and require
only whitespace afterwards; `none` models a raised `JSONDecodeError`.
The fuel bound is generous: each parser call consumes input. -/
def jsonLoads (s : String) : Option JsonVal :=
  match parseValue (2 * s.toList.length + 4) (stripLeft s.toList) with
  | some (v, rest) => if stripLeft rest = [] then some v else none
  | none => none

/-- The markdown-fence stripping in `_parse_json_response`
(src/app/agent.py lines 96-101): strip, drop a leading "```json", drop a
trailing "```", strip again. -/
def fenceStripL (cs : List Char) : List Char :=
  let cs1 := pyStripL cs
  let cs2 := if ("```json".toList).isPrefixOf cs1 then cs1.drop 7 else cs1
  let cs3 := if ("```".toList).isSuffixOf cs2 then cs2.take (cs2.length - 3) else cs2
  pyStripL cs3

/-- String version of `fenceStripL`. -/
def fenceStrip (s : String) : String := String.mk (fenceStripL s.toList)

/-- `_parse_json_response` (src/app/agent.py lines 92-107).  A string is
fence-stripped and decoded; decode failure is caught and `None` is
returned, which coincides with a successful decode of the text "null"
(both produce Python `None`, here `.null`).  A non-string input is
returned unchanged. -/
def parseJsonResponse : JsonVal → JsonVal
  | .str s => (jsonLoads (fenceStrip s)).getD .null
  | v => v

example : jsonLoads "true" = some (.bool true) := rfl
example : jsonLoads " -42 " = some (.num (-42)) := rfl
example : jsonLoads "hello" = none := rfl
example : jsonLoads "\x7b\"a\": 1, \"b\": [2, \"x\"]\x7d" =
    some (.obj [("a", .num 1), ("b", .arr [.num 2, .str "x"])]) := rfl
example : parseJsonResponse (.str "```json\n\x7b\"a\": true\x7d\n```") =
    .obj [("a", .bool true)] := rfl
example : parseJsonResponse (.str "hello") = .null := rfl
example : isUserApprovalStr "  YES " = true := rfl
example : isUserApprovalStr "make it shorter" = false := rfl

/-! ### Shape of the text consumed by a successful parse

These lemmas locate the first and last character of the region of input a
successful `parseValue` consumes; they show that a string accepted by
`jsonLoads` can neither begin with a backtick (after stripping) nor end
with one, which is what makes the fence-stripping of
`_parse_json_response` a no-op on bare JSON text. -/

/-- Characters on which `parseValue` can successfully dispatch. -/
def jsonStartChar (c : Char) : Bool :=
  c == '{' || c == '[' || c == '"' || c == 't' || c == 'f' || c == 'n' ||
    c == '-' || c.isDigit

/-- Characters that can end the text consumed by a successful `parseValue`. -/
def jsonEndChar (c : Char) : Bool :=
  c == '}' || c == ']' || c == '"' || c == 'e' || c == 'l' || c.isDigit

theorem stripLeft_decomp (cs : List Char) :
    cs = cs.takeWhile pyIsWs ++ stripLeft cs :=
  (List.takeWhile_append_dropWhile pyIsWs cs).symm

theorem takeWhile_all_pyIsWs (cs : List Char) :
    ∀ c ∈ cs.takeWhile pyIsWs, pyIsWs c = true := by
  intro c hc
  exact List.mem_takeWhile_imp hc

theorem parseStrBody_consume (cs : List Char) :
    ∀ body rem, parseStrBody cs = some (body, rem) → ∃ p, cs = p ++ '"' :: rem := by
  induction cs using parseStrBody.induct with
  | case1 =>
    intro body rem h
    simp [parseStrBody] at h
  | case2 rest =>
    intro body rem h
    simp only [parseStrBody, Option.some.injEq, Prod.mk.injEq] at h
    exact ⟨[], by simp [h.2]⟩
  | case3 =>
    intro body rem h
    simp [parseStrBody] at h
  | case4 e rest2 hesc =>
    intro body rem h
    simp [parseStrBody, hesc] at h
  | case5 e rest2 ec hesc hrec ih =>
    intro body rem h
    simp [parseStrBody, hesc, hrec] at h
  | case6 e rest2 ec hesc body2 rem2 hrec ih =>
    intro body rem h
    simp only [parseStrBody, hesc, hrec, Option.some.injEq, Prod.mk.injEq] at h
    obtain ⟨p, hp⟩ := ih body2 rem2 hrec
    refine ⟨'\\' :: e :: p, ?_⟩
    rw [← h.2, hp]
    simp
  | case7 c rest h1 h2 hlt =>
    intro body rem h
    rw [parseStrBody.eq_5 c rest h1 h2, if_pos hlt] at h
    exact absurd h (by simp)
  | case8 c rest h1 h2 hlt hrec ih =>
    intro body rem h
    rw [parseStrBody.eq_5 c rest h1 h2, if_neg hlt, hrec] at h
    exact absurd h (by simp)
  | case9 c rest h1 h2 hlt body2 rem2 hrec ih =>
    intro body rem h
    rw [parseStrBody.eq_5 c rest h1 h2, if_neg hlt, hrec] at h
    simp only [Option.some.injEq, Prod.mk.injEq] at h
    obtain ⟨p, hp⟩ := ih body2 rem2 hrec
    refine ⟨c :: p, ?_⟩
    rw [← h.2, hp]
    simp

theorem digits_split (cs : List Char) (hne : ¬ (cs.takeWhile Char.isDigit).isEmpty) :
    ∃ q d, cs = q ++ d :: cs.dropWhile Char.isDigit ∧ d.isDigit = true := by
  have hne' : cs.takeWhile Char.isDigit ≠ [] := by
    simpa [List.isEmpty_iff] using hne
  rcases List.eq_nil_or_concat (cs.takeWhile Char.isDigit) with hnil | ⟨q, d, hqd⟩
  · exact absurd hnil hne'
  · have hd : d.isDigit := List.mem_takeWhile_imp (l := cs) (by rw [hqd]; simp)
    refine ⟨q, d, ?_, hd⟩
    conv_lhs => rw [← List.takeWhile_append_dropWhile Char.isDigit cs, hqd]
    simp

theorem parseNumber_consume (cs : List Char) (v : JsonVal) (rest : List Char)
    (h : parseNumber cs = some (v, rest)) :
    ∃ p c, cs = p ++ c :: rest ∧ jsonEndChar c = true := by
  unfold parseNumber at h
  split at h
  · rename_i rest0
    split at h
    · exact absurd h (by simp)
    · rename_i hne
      simp only [Option.some.injEq, Prod.mk.injEq] at h
      obtain ⟨q, d, hq, hd⟩ := digits_split rest0 hne
      refine ⟨'-' :: q, d, ?_, by simp [jsonEndChar, hd]⟩
      rw [← h.2]
      conv_lhs => rw [hq]
      simp
  · split at h
    · exact absurd h (by simp)
    · rename_i hne
      simp only [Option.some.injEq, Prod.mk.injEq] at h
      obtain ⟨q, d, hq, hd⟩ := digits_split cs hne
      refine ⟨q, d, ?_, by simp [jsonEndChar, hd]⟩
      rw [← h.2]
      exact hq

theorem stripLeft_split {cs out : List Char} (h : stripLeft cs = out) :
    ∃ w, cs = w ++ out := by
  refine ⟨cs.takeWhile pyIsWs, ?_⟩
  rw [← h]
  exact stripLeft_decomp cs

theorem parse_consume (f : Nat) :
    (∀ cs v rest, parseValue f cs = some (v, rest) →
        ∃ p c, cs = p ++ c :: rest ∧ jsonEndChar c = true)
  ∧ (∀ acc cs v rest, parseMembers f acc cs = some (v, rest) →
        ∃ p, cs = p ++ '}' :: rest)
  ∧ (∀ acc cs v rest, parseItems f acc cs = some (v, rest) →
        ∃ p, cs = p ++ ']' :: rest) := by
  induction f with
  | zero =>
    refine ⟨?_, ?_, ?_⟩
    · intro cs v rest h
      simp [parseValue] at h
    · intro acc cs v rest h
      simp [parseMembers] at h
    · intro acc cs v rest h
      simp [parseItems] at h
  | succ f ih =>
    obtain ⟨ihV, ihM, ihI⟩ := ih
    refine ⟨?_, ?_, ?_⟩
    · intro cs v rest h
      simp only [parseValue] at h
      split at h
      · exact absurd h (by simp)
      · rename_i rest0
        split at h
        · rename_i rest2 heq
          simp only [Option.some.injEq, Prod.mk.injEq] at h
          obtain ⟨w, hw⟩ := stripLeft_split heq
          refine ⟨'{' :: w, '}', ?_, by decide⟩
          rw [← h.2, hw]
          simp
        · obtain ⟨p, hp⟩ := ihM [] (stripLeft rest0) v rest h
          obtain ⟨w, hw⟩ := stripLeft_split hp
          refine ⟨'{' :: (w ++ p), '}', ?_, by decide⟩
          rw [hw]
          simp
      · rename_i rest0
        split at h
        · rename_i rest2 heq
          simp only [Option.some.injEq, Prod.mk.injEq] at h
          obtain ⟨w, hw⟩ := stripLeft_split heq
          refine ⟨'[' :: w, ']', ?_, by decide⟩
          rw [← h.2, hw]
          simp
        · obtain ⟨p, hp⟩ := ihI [] (stripLeft rest0) v rest h
          obtain ⟨w, hw⟩ := stripLeft_split hp
          refine ⟨'[' :: (w ++ p), ']', ?_, by decide⟩
          rw [hw]
          simp
      · rename_i rest0
        split at h
        · exact absurd h (by simp)
        · rename_i body rem hsb
          simp only [Option.some.injEq, Prod.mk.injEq] at h
          obtain ⟨p, hp⟩ := parseStrBody_consume rest0 body rem hsb
          refine ⟨'"' :: p, '"', ?_, by decide⟩
          rw [← h.2, hp]
          simp
      · rename_i rest0
        split at h
        · rename_i htake
          simp only [Option.some.injEq, Prod.mk.injEq] at h
          have hsplit : rest0 = ['r', 'u', 'e'] ++ rest0.drop 3 := by
            conv_lhs => rw [← List.take_append_drop 3 rest0, htake]
          refine ⟨['t', 'r', 'u'], 'e', ?_, by decide⟩
          rw [← h.2]
          conv_lhs => rw [hsplit]
          simp
        · exact absurd h (by simp)
      · rename_i rest0
        split at h
        · rename_i htake
          simp only [Option.some.injEq, Prod.mk.injEq] at h
          have hsplit : rest0 = ['a', 'l', 's', 'e'] ++ rest0.drop 4 := by
            conv_lhs => rw [← List.take_append_drop 4 rest0, htake]
          refine ⟨['f', 'a', 'l', 's'], 'e', ?_, by decide⟩
          rw [← h.2]
          conv_lhs => rw [hsplit]
          simp
        · exact absurd h (by simp)
      · rename_i rest0
        split at h
        · rename_i htake
          simp only [Option.some.injEq, Prod.mk.injEq] at h
          have hsplit : rest0 = ['u', 'l', 'l'] ++ rest0.drop 3 := by
            conv_lhs => rw [← List.take_append_drop 3 rest0, htake]
          refine ⟨['n', 'u', 'l'], 'l', ?_, by decide⟩
          rw [← h.2]
          conv_lhs => rw [hsplit]
          simp
        · exact absurd h (by simp)
      · rename_i c rest0 hne1 hne2 hne3 hne4 hne5 hne6
        split at h
        · exact parseNumber_consume (c :: rest0) v rest h
        · exact absurd h (by simp)
    · intro acc cs v rest h
      simp only [parseMembers] at h
      split at h
      · rename_i rest0
        split at h
        · exact absurd h (by simp)
        · rename_i key rest2 hkey
          split at h
          · rename_i rest3 hcolon
            split at h
            · exact absurd h (by simp)
            · rename_i v4 rest4 hval
              split at h
              · rename_i rest5 hcomma
                obtain ⟨pm, hpm⟩ := ihM _ (stripLeft rest5) v rest h
                obtain ⟨pk, hpk⟩ := parseStrBody_consume rest0 key rest2 hkey
                obtain ⟨w1, hw1⟩ := stripLeft_split hcolon
                obtain ⟨pv, cv, hpv, -⟩ := ihV (stripLeft rest3) v4 rest4 hval
                obtain ⟨w2, hw2⟩ := stripLeft_split hpv
                obtain ⟨w3, hw3⟩ := stripLeft_split hcomma
                obtain ⟨w4, hw4⟩ := stripLeft_split hpm
                refine ⟨'"' :: (pk ++ '"' :: (w1 ++ ':' :: (w2 ++ pv ++ cv ::
                  (w3 ++ ',' :: (w4 ++ pm))))), ?_⟩
                rw [hpk, hw1, hw2, hw3, hw4]
                simp
              · rename_i rest5 hbrace
                simp only [Option.some.injEq, Prod.mk.injEq] at h
                obtain ⟨pk, hpk⟩ := parseStrBody_consume rest0 key rest2 hkey
                obtain ⟨w1, hw1⟩ := stripLeft_split hcolon
                obtain ⟨pv, cv, hpv, -⟩ := ihV (stripLeft rest3) v4 rest4 hval
                obtain ⟨w2, hw2⟩ := stripLeft_split hpv
                obtain ⟨w3, hw3⟩ := stripLeft_split hbrace
                refine ⟨'"' :: (pk ++ '"' :: (w1 ++ ':' :: (w2 ++ pv ++ cv :: w3))),
                  ?_⟩
                rw [← h.2, hpk, hw1, hw2, hw3]
                simp
              · exact absurd h (by simp)
          · exact absurd h (by simp)
      · exact absurd h (by simp)
    · intro acc cs v rest h
      simp only [parseItems] at h
      split at h
      · exact absurd h (by simp)
      · rename_i v0 rest0 hval
        obtain ⟨pv, cv, hpv, -⟩ := ihV cs v0 rest0 hval
        split at h
        · rename_i rest2 hcomma
          obtain ⟨pi, hpi⟩ := ihI _ (stripLeft rest2) v rest h
          obtain ⟨w1, hw1⟩ := stripLeft_split hcomma
          obtain ⟨w2, hw2⟩ := stripLeft_split hpi
          refine ⟨pv ++ cv :: (w1 ++ ',' :: (w2 ++ pi)), ?_⟩
          rw [hpv, hw1, hw2]
          simp
        · rename_i rest2 hbr
          simp only [Option.some.injEq, Prod.mk.injEq] at h
          obtain ⟨w1, hw1⟩ := stripLeft_split hbr
          refine ⟨pv ++ cv :: w1, ?_⟩
          rw [← h.2, hpv, hw1]
          simp
        · exact absurd h (by simp)

theorem parseValue_startChar (f : Nat) (cs : List Char) (v : JsonVal)
    (rest : List Char) (h : parseValue f cs = some (v, rest)) :
    ∃ c t, cs = c :: t ∧ jsonStartChar c = true := by
  match f with
  | 0 => simp [parseValue] at h
  | Nat.succ f =>
    simp only [parseValue] at h
    split at h
    · exact absurd h (by simp)
    · rename_i rest0
      exact ⟨'{', rest0, rfl, by decide⟩
    · rename_i rest0
      exact ⟨'[', rest0, rfl, by decide⟩
    · rename_i rest0
      exact ⟨'"', rest0, rfl, by decide⟩
    · rename_i rest0
      exact ⟨'t', rest0, rfl, by decide⟩
    · rename_i rest0
      exact ⟨'f', rest0, rfl, by decide⟩
    · rename_i rest0
      exact ⟨'n', rest0, rfl, by decide⟩
    · rename_i c rest0 hne1 hne2 hne3 hne4 hne5 hne6
      split at h
      · rename_i hcond
        rcases (by simpa using hcond : c = '-' ∨ c.isDigit = true) with hc | hc
        · subst hc
          exact ⟨'-', rest0, rfl, by decide⟩
        · exact ⟨c, rest0, rfl, by simp [jsonStartChar, hc]⟩
      · exact absurd h (by simp)

theorem pyIsWs_not_json {c : Char} (h : pyIsWs c = true) :
    jsonEndChar c = false ∧ jsonStartChar c = false := by
  have hmem : c = ' ' ∨ c = '\t' ∨ c = '\n' ∨ c = '\x0d' ∨ c = '\x0b' ∨ c = '\x0c' := by
    simpa [pyIsWs, or_assoc] using h
  rcases hmem with h1 | h1 | h1 | h1 | h1 | h1 <;> subst h1 <;>
    exact ⟨by decide, by decide⟩

theorem jsonEndChar_not_ws {c : Char} (h : jsonEndChar c = true) :
    pyIsWs c = false := by
  by_cases hw : pyIsWs c
  · exact absurd h (by simp [(pyIsWs_not_json hw).1])
  · simpa using hw

theorem jsonStartChar_not_ws {c : Char} (h : jsonStartChar c = true) :
    pyIsWs c = false := by
  by_cases hw : pyIsWs c
  · exact absurd h (by simp [(pyIsWs_not_json hw).2])
  · simpa using hw

theorem stripLeft_of_head {c : Char} {t : List Char} (hc : pyIsWs c = false) :
    stripLeft (c :: t) = c :: t := by
  simp [stripLeft, List.dropWhile_cons, hc]

theorem stripRight_of_last {q : List Char} {c : Char} (hc : pyIsWs c = false) :
    stripRight (q ++ [c]) = q ++ [c] := by
  unfold stripRight
  simp [List.dropWhile_cons, hc]

theorem stripRight_append_ws {p rest : List Char} {c : Char}
    (hc : pyIsWs c = false) (hrest : ∀ x ∈ rest, pyIsWs x = true) :
    stripRight (p ++ c :: rest) = p ++ [c] := by
  unfold stripRight
  have h1 : (p ++ c :: rest).reverse = rest.reverse ++ c :: p.reverse := by
    simp
  rw [h1, List.dropWhile_append]
  have h2 : rest.reverse.dropWhile pyIsWs = [] := by
    rw [List.dropWhile_eq_nil_iff]
    intro x hx
    exact hrest x (by simpa using hx)
  simp [h2, List.dropWhile_cons, hc]

theorem stripRight_concat_ws (y : List Char) (c : Char) (hc : pyIsWs c = true) :
    stripRight (y ++ [c]) = stripRight y := by
  unfold stripRight
  simp [List.dropWhile_cons, hc]

theorem pyStripL_cons_ws (c : Char) (x : List Char) (hc : pyIsWs c = true) :
    pyStripL (c :: x) = pyStripL x := by
  unfold pyStripL stripLeft
  simp [List.dropWhile_cons, hc]

theorem pyStripL_concat_ws (a : List Char) (c : Char) (hc : pyIsWs c = true) :
    pyStripL (a ++ [c]) = pyStripL a := by
  unfold pyStripL stripLeft
  rw [List.dropWhile_append]
  split
  · rename_i hzero
    have ha : List.dropWhile pyIsWs a = [] := by
      simpa [List.isEmpty_iff] using hzero
    simp [ha, List.dropWhile_cons, hc, stripRight]
  · exact stripRight_concat_ws _ c hc

theorem jsonLoads_inv {s : String} {v : JsonVal} (h : jsonLoads s = some v) :
    ∃ rest, parseValue (2 * s.toList.length + 4) (stripLeft s.toList)
        = some (v, rest) ∧ stripLeft rest = [] := by
  unfold jsonLoads at h
  split at h
  · rename_i v0 rest heq
    split at h
    · rename_i hrest
      obtain rfl : v0 = v := Option.some.inj h
      exact ⟨rest, heq, hrest⟩
    · exact absurd h (by simp)
  · exact absurd h (by simp)

theorem jsonLoads_strip_shape {s : String} {v : JsonVal} (h : jsonLoads s = some v) :
    (∃ c t, pyStripL s.toList = c :: t ∧ jsonStartChar c = true) ∧
    (∃ q c, pyStripL s.toList = q ++ [c] ∧ jsonEndChar c = true) := by
  obtain ⟨rest, hp, hrest⟩ := jsonLoads_inv h
  obtain ⟨p, cE, hdec, hend⟩ := (parse_consume _).1 _ _ _ hp
  obtain ⟨cS, t, hhead, hstart⟩ := parseValue_startChar _ _ _ _ hp
  have hws : ∀ x ∈ rest, pyIsWs x = true := by
    simpa [stripLeft, List.dropWhile_eq_nil_iff] using hrest
  have hstrip : pyStripL s.toList = p ++ [cE] := by
    unfold pyStripL
    rw [hdec]
    exact stripRight_append_ws (jsonEndChar_not_ws hend) hws
  refine ⟨?_, ⟨p, cE, hstrip, hend⟩⟩
  have hpc : p ++ cE :: rest = cS :: t := hdec.symm.trans hhead
  match p, hpc with
  | [], hpc =>
    have hce : cE = cS := by
      have h' := hpc
      simp only [List.nil_append, List.cons.injEq] at h'
      exact h'.1
    refine ⟨cS, [], ?_, hstart⟩
    rw [hstrip, hce]
    simp
  | a :: p', hpc =>
    have ha : a = cS := by
      have h' := hpc
      simp only [List.cons_append, List.cons.injEq] at h'
      exact h'.1
    refine ⟨cS, p' ++ [cE], ?_, hstart⟩
    rw [hstrip, ha]
    simp

theorem fenceStripL_of_json {s : String} {v : JsonVal} (h : jsonLoads s = some v) :
    fenceStripL s.toList = pyStripL s.toList := by
  obtain ⟨⟨cS, t, hhead, hstart⟩, ⟨q, cE, hlast, hend⟩⟩ := jsonLoads_strip_shape h
  have hpre : (("```json".toList).isPrefixOf (pyStripL s.toList)) = false := by
    by_cases hp : ("```json".toList).isPrefixOf (pyStripL s.toList)
    · exfalso
      obtain ⟨u, hu⟩ := List.isPrefixOf_iff_prefix.mp hp
      rw [hhead, show ("```json".toList) = ['`', '`', '`', 'j', 's', 'o', 'n'] from rfl]
        at hu
      simp only [List.cons_append, List.cons.injEq] at hu
      rw [← hu.1] at hstart
      exact absurd hstart (by decide)
    · exact Bool.eq_false_iff.mpr hp
  have hsuf : (("```".toList).isSuffixOf (pyStripL s.toList)) = false := by
    by_cases hp : ("```".toList).isSuffixOf (pyStripL s.toList)
    · exfalso
      obtain ⟨u, hu⟩ := List.isSuffixOf_iff_suffix.mp hp
      rw [hlast, show ("```".toList) = ['`', '`', '`'] from rfl] at hu
      have hre : (u ++ ['`', '`']) ++ ['`'] = q ++ [cE] := by
        rw [← hu]
        simp
      have h1 := List.getLast?_concat (a := '`') (u ++ ['`', '`'])
      rw [hre, List.getLast?_concat] at h1
      rw [Option.some.inj h1] at hend
      exact absurd hend (by decide)
    · exact Bool.eq_false_iff.mpr hp
  have h1 : stripLeft (pyStripL s.toList) = pyStripL s.toList := by
    rw [hhead]
    exact stripLeft_of_head (jsonStartChar_not_ws hstart)
  have h2 : stripRight (pyStripL s.toList) = pyStripL s.toList := by
    rw [hlast]
    exact stripRight_of_last (jsonEndChar_not_ws hend)
  simp only [fenceStripL, hpre, hsuf, Bool.false_eq_true, if_false]
  rw [pyStripL, h1, h2]

theorem fenceStripL_fenced (s : String) :
    fenceStripL ("```json\n" ++ s ++ "\n```").toList = pyStripL s.toList := by
  have hlist : ("```json\n" ++ s ++ "\n```").toList
      = '`' :: '`' :: '`' :: 'j' :: 's' :: 'o' :: 'n' :: '\n' ::
        (s.toList ++ ['\n', '`', '`', '`']) := by
    show ("```json\n" ++ s ++ "\n```").data
        = '`' :: '`' :: '`' :: 'j' :: 's' :: 'o' :: 'n' :: '\n' ::
          (s.data ++ ['\n', '`', '`', '`'])
    rw [String.data_append, String.data_append]
    show ['`', '`', '`', 'j', 's', 'o', 'n', '\n'] ++ s.data ++ ['\n', '`', '`', '`'] = _
    simp
  rw [hlist]
  have hstrip1 : pyStripL ('`' :: '`' :: '`' :: 'j' :: 's' :: 'o' :: 'n' :: '\n' ::
      (s.toList ++ ['\n', '`', '`', '`']))
      = '`' :: '`' :: '`' :: 'j' :: 's' :: 'o' :: 'n' :: '\n' ::
        (s.toList ++ ['\n', '`', '`', '`']) := by
    have hq : ('`' :: '`' :: '`' :: 'j' :: 's' :: 'o' :: 'n' :: '\n' ::
        (s.toList ++ ['\n', '`', '`', '`']))
        = ('`' :: '`' :: '`' :: 'j' :: 's' :: 'o' :: 'n' :: '\n' ::
          (s.toList ++ ['\n', '`', '`'])) ++ ['`'] := by
      simp
    rw [pyStripL, stripLeft_of_head (by decide), hq, stripRight_of_last (by decide)]
  have hpre : ("```json".toList).isPrefixOf ('`' :: '`' :: '`' :: 'j' :: 's' :: 'o' ::
      'n' :: '\n' :: (s.toList ++ ['\n', '`', '`', '`'])) = true := by
    have hp : ("```json".toList) <+: ('`' :: '`' :: '`' :: 'j' :: 's' :: 'o' ::
        'n' :: '\n' :: (s.toList ++ ['\n', '`', '`', '`'])) := by
      refine ⟨'\n' :: (s.toList ++ ['\n', '`', '`', '`']), ?_⟩
      rw [show ("```json".toList) = ['`', '`', '`', 'j', 's', 'o', 'n'] from rfl]
      simp
    simp only [List.isPrefixOf_iff_prefix]
    exact hp
  have hsuf : ("```".toList).isSuffixOf ('\n' :: (s.toList ++ ['\n', '`', '`', '`']))
      = true := by
    have hp : ("```".toList) <:+ ('\n' :: (s.toList ++ ['\n', '`', '`', '`'])) := by
      refine ⟨'\n' :: (s.toList ++ ['\n']), ?_⟩
      rw [show ("```".toList) = ['`', '`', '`'] from rfl]
      simp
    simpa using hp
  have hdrop : ('`' :: '`' :: '`' :: 'j' :: 's' :: 'o' :: 'n' :: '\n' ::
      (s.toList ++ ['\n', '`', '`', '`'])).drop 7
      = '\n' :: (s.toList ++ ['\n', '`', '`', '`']) := rfl
  have htake : ('\n' :: (s.toList ++ ['\n', '`', '`', '`'])).take
      (('\n' :: (s.toList ++ ['\n', '`', '`', '`'])).length - 3)
      = '\n' :: (s.toList ++ ['\n']) := by
    have hAB : ('\n' :: (s.toList ++ ['\n', '`', '`', '`']))
        = ('\n' :: (s.toList ++ ['\n'])) ++ ['`', '`', '`'] := by
      simp
    rw [hAB]
    refine List.take_left' ?_
    simp
  simp only [fenceStripL, hstrip1, hpre, if_true, hdrop, hsuf, htake]
  rw [pyStripL_cons_ws _ _ (by decide), pyStripL_concat_ws _ _ (by decide)]

/-- C7: feeding the response interpreter a JSON document wrapped in a
markdown code fence yields the same result as feeding it the bare
document: the fence markers are stripped before decoding. -/
theorem C7_fenced_json_roundtrip (d : String) (v : JsonVal)
    (h : jsonLoads d = some v) :
    parseJsonResponse (.str ("```json\n" ++ d ++ "\n```"))
      = parseJsonResponse (.str d) := by
  simp only [parseJsonResponse]
  unfold fenceStrip
  rw [fenceStripL_fenced, fenceStripL_of_json h]

set_option maxHeartbeats 2000000 in
/-- Witness for C7 at a concrete document. -/
theorem C7_fenced_json_roundtrip_witness :
    jsonLoads "\x7b\"theme\": \"Pasta\", \"user_intent\": \"cooking\"\x7d"
        = some (.obj [("theme", .str "Pasta"), ("user_intent", .str "cooking")])
    ∧ parseJsonResponse
        (.str ("```json\n" ++ "\x7b\"theme\": \"Pasta\", \"user_intent\": \"cooking\"\x7d"
          ++ "\n```"))
      = parseJsonResponse (.str "\x7b\"theme\": \"Pasta\", \"user_intent\": \"cooking\"\x7d") :=
  ⟨rfl, C7_fenced_json_roundtrip _ _ rfl⟩

/-! ### The workflow controller (src/app/agent.py) -/

/-- Lookup in a parsed JSON object.  Python's `json.loads` keeps the last
value for a duplicate key, so the last binding wins. -/
def pyLookup (kvs : List (String × JsonVal)) (key : String) : Option JsonVal :=
  (kvs.reverse.find? (fun kv => kv.1 == key)).map Prod.snd

/-- Python `value.get(key, default)` on an interpreted value: raises
`AttributeError` when the value is not a dict. -/
def pyDictGet (v : JsonVal) (key : String) (dflt : JsonVal) :
    Except Unit JsonVal :=
  match v with
  | .obj kvs => .ok ((pyLookup kvs key).getD dflt)
  | _ => .error ()

/-- Rendering of a state value inside an f-string message.  Only string
content matters to the claims; the display form of compound values is
abstracted. -/
def pyToText : JsonVal → String
  | .str s => s
  | .bool true => "True"
  | .bool false => "False"
  | .null => "None"
  | .num n => toString n
  | .arr _ => "[...]"
  | .obj _ => "..."

/-- The four workflow stages (src/app/agent.py lines 26-30). -/
inductive WorkflowStage where
  | THEME_DEFINITION
  | RESEARCH
  | SCRIPT_CREATION
  | ASSET_GENERATION
deriving DecidableEq

/-- Pipeline position of a stage, for the monotonicity claim. -/
def WorkflowStage.pos : WorkflowStage → Nat
  | .THEME_DEFINITION => 1
  | .RESEARCH => 2
  | .SCRIPT_CREATION => 3
  | .ASSET_GENERATION => 4

/-- The session-state entries read or written by the controller and the
image generator, one field per key.  `JsonVal.null` models an absent key
(Python `state.get(key)` returns `None`); the two `user_responded_*`
flags are Python booleans defaulting to `False`. -/
structure SessionState where
  workflow_stage : Option WorkflowStage := none
  theme_intent : JsonVal := .null
  feedback : JsonVal := .null
  research_report : JsonVal := .null
  script : JsonVal := .null
  image_prompts : JsonVal := .null
  user_responded_to_theme : Bool := false
  user_responded_to_script : Bool := false
  user_feedback : JsonVal := .null
  assets_path : Option String := none
  intent : JsonVal := .null
  images_path : Option (List String) := none

/-- The stage a turn starts from:
`state.get("workflow_stage", WorkflowStage.THEME_DEFINITION)`. -/
def effStage (s : SessionState) : WorkflowStage :=
  s.workflow_stage.getD .THEME_DEFINITION

/-- Observable activity of one turn: emitted text events (`text2event`),
sub-agent invocations (iterating a sub-agent's `run_async`), assignments
to the `workflow_stage` key, and an uncaught Python exception ending the
turn. -/
inductive Ev where
  | msg (author text : String)
  | agentRun (agentName : String)
  | stageSet (st : WorkflowStage)
  | exn
deriving DecidableEq

/-- Result of one scene's `generate_images` call inside `_generate_image`:
`k` generated images, an empty result list, or a raised exception (caught
per scene). -/
inductive ImgOutcome where
  | ok (k : Nat)
  | empty
  | exn (msg : String)

/-- Oracles for the externally generated step outputs of one turn: `some v`
means running that step writes `v` to its output key; `none` means the
run leaves the key untouched.  `imageOutcome` gives the per-scene result
of the image-generation backend. -/
structure Agents where
  themeOut : Option JsonVal := none
  feedbackOut : Option JsonVal := none
  researchOut : Option JsonVal := none
  scriptOut : Option JsonVal := none
  promptOut : Option JsonVal := none
  imageOutcome : Nat → ImgOutcome := fun _ => ImgOutcome.empty

/-- Accumulator for one turn: the session state, the filesystem model (the
list of paths created so far), and the events so far. -/
structure Acc where
  state : SessionState
  fs : List String
  events : List Ev

/-- The orchestrator's agent name. -/
def selfName : String := "YouTubeShortsCreatorAgent"

/-- The image generator's agent name. -/
def imgName : String := "ImageGeneratorAgent"

/-- `text2event`: append one text message event. -/
def emit (a : Acc) (author text : String) : Acc :=
  { a with events := a.events ++ [.msg author text] }

/-- An uncaught Python exception: the turn ends here; state changes made so
far are kept. -/
def crash (a : Acc) : Acc := { a with events := a.events ++ [.exn] }

/-- An assignment `ctx.session.state["workflow_stage"] = st`, recorded in
the event trace. -/
def setStage (a : Acc) (st : WorkflowStage) : Acc :=
  { a with
    state := { a.state with workflow_stage := some st },
    events := a.events ++ [.stageSet st] }

/-- The error message of `_run_sub_agent` (line 85). -/
def noOutputMsg (agentName : String) : String :=
  "[" ++ selfName ++ "] " ++ agentName ++ " did not produce output. Aborting workflow."

/-- The theme proposal message (lines 131-136). -/
def proposeThemeMsg (theme intentV : JsonVal) : String :=
  "I propose this theme: **" ++ pyToText theme ++ "**\n\nIntent: " ++
    pyToText intentV ++
    "\n\nDoes this look good to you? Type 'yes' to approve or provide feedback for changes."

/-- The script proposal message (lines 151-155). -/
def proposeScriptMsg (script : JsonVal) : String :=
  "Here's your script:\n\n**" ++ pyToText script ++
    "**\n\nDoes this script work for you? Type 'yes' to approve or provide feedback for changes."

/-- `_run_sub_agent` (lines 74-90): run the sub-agent (its own events are
abstracted as one `agentRun` marker; with `some v` it writes `v` to its
output key), then check the key and emit the error message when it is
falsy afterwards.  Control always returns to the caller. -/
def runSubAgent (a : Acc) (agentName : String) (out : Option JsonVal)
    (write : SessionState → JsonVal → SessionState)
    (read : SessionState → JsonVal) : Acc :=
  let st := match out with
    | some v => write a.state v
    | none => a.state
  let a1 : Acc := { a with state := st, events := a.events ++ [.agentRun agentName] }
  if truthy (read st) then a1
  else emit a1 selfName (noOutputMsg agentName)

/-- `_define_theme_and_ask_for_feedback` (lines 115-138).  `.error` models
the uncaught `AttributeError` when the parsed theme is a truthy
non-dict. -/
def defineThemeAndAsk (ag : Agents) (a : Acc) : Except Acc Acc :=
  let a1 := emit a selfName "Let me analyze your request and propose a theme..."
  let a2 := runSubAgent a1 "ThemeDefinerAgent" ag.themeOut
    (fun s v => { s with theme_intent := v }) (fun s => s.theme_intent)
  if truthy a2.state.theme_intent then
    let ti := parseJsonResponse a2.state.theme_intent
    if truthy ti then
      match pyDictGet ti "theme" (.str "Unknown Theme"),
          pyDictGet ti "user_intent" (.str "No intent specified") with
      | .ok theme, .ok intentV =>
        .ok (emit a2 selfName (proposeThemeMsg theme intentV))
      | _, _ => .error (crash a2)
    else
      .ok (emit a2 selfName "Sorry, I couldn't understand your request. Please try again.")
  else .ok a2

/-- `_draft_script_and_ask_for_feedback` (lines 140-155). -/
def draftScriptAndAsk (ag : Agents) (a : Acc) : Acc :=
  let a1 := emit a selfName "Creating your script based on the research..."
  let a2 := runSubAgent a1 "ScriptWriterAgent" ag.scriptOut
    (fun s v => { s with script := v }) (fun s => s.script)
  if truthy a2.state.script then
    emit a2 selfName (proposeScriptMsg a2.state.script)
  else a2

/-- Idempotent `Path.mkdir(parents=True, exist_ok=True)`: record the path
once; an existing directory is not an error. -/
def mkdirParents (fs : List String) (p : String) : List String :=
  if p ∈ fs then fs else fs ++ [p]

/-- The workspace derivation and creation of `_setup_assets_folder`
(lines 172-175): `Path("projects") / theme.replace(" ", "_").lower()`,
created idempotently; returns the path and the updated filesystem. -/
def provisionWorkspace (theme : String) (fs : List String) :
    String × List String :=
  ("projects/" ++ pyLower (replaceSpaceByUnderscore theme),
    mkdirParents fs ("projects/" ++ pyLower (replaceSpaceByUnderscore theme)))

/-- `_setup_assets_folder` (lines 157-178).  `.error` models the uncaught
exception when the parsed theme record is a truthy non-dict or its
`theme` entry is not a string. -/
def setupAssetsFolder (a : Acc) : Except Acc Acc :=
  if truthy a.state.theme_intent then
    let ti := parseJsonResponse a.state.theme_intent
    match (if truthy ti then pyDictGet ti "theme" (.str "default")
            else .ok (.str "default")),
        (if truthy ti then pyDictGet ti "user_intent" (.str "")
            else .ok (.str "")) with
    | .ok (.str themeS), .ok intentV =>
      let pfs := provisionWorkspace themeS a.fs
      .ok (emit { a with
          state := { a.state with assets_path := some pfs.1, intent := intentV },
          fs := pfs.2 } selfName
        ("Project folder created: " ++ pfs.1))
    | .ok _, .ok _ => .error (crash a)
    | _, _ => .error (crash a)
  else .ok (emit a selfName "Error: No theme defined")

/-- The save loop of `_generate_image` (lines 83-90): one saved file and
one message per generated image. -/
def saveImages (outputDir : String) : Nat → Nat → Acc → Acc
  | _, 0, a => a
  | imageIdx, Nat.succ k, a =>
    saveImages outputDir (imageIdx + 1) k
      { a with
        fs := a.fs ++ [outputDir ++ "/image_" ++ toString (imageIdx + 1) ++ ".jpg"],
        events := a.events ++ [.msg imgName "Image generated and saved!"] }

/-- `_generate_image` (image_generator.py lines 64-95): emit the attempt
message, then save the generated images, or report an empty result, or
report a caught exception.  Every failure mode is contained in this
scene. -/
def generateImage (outcome : ImgOutcome) (sceneIdx : Nat)
    (outputDir : String) (a : Acc) : Acc :=
  let a1 := emit a imgName ("Generating image for scene " ++
    toString (sceneIdx + 1) ++ "...")
  match outcome with
  | .empty =>
    emit a1 imgName ("Image generation failed for scene " ++ toString (sceneIdx + 1))
  | .exn m => emit a1 imgName ("Error generating image: " ++ m)
  | .ok k => saveImages outputDir 0 k a1

/-- The per-scene loop of `ImagenAgent._run_async_impl` (lines 126-132):
create the scene's images directory, append it to the output key, then
attempt generation; continue with the remaining scenes regardless. -/
def scenesLoop (ag : Agents) (assetsPath : String) :
    Nat → List JsonVal → Acc → Acc
  | _, [], a => a
  | idx, _p :: rest, a =>
    let dir := assetsPath ++ "/scene_" ++ toString (idx + 1) ++ "/images"
    let a1 : Acc := { a with
      fs := mkdirParents a.fs dir,
      state := { a.state with
        images_path := some ((a.state.images_path.getD []) ++ [dir]) } }
    let a2 := generateImage (ag.imageOutcome idx) idx dir a1
    scenesLoop ag assetsPath (idx + 1) rest a2

/-- Normal form of the raw `image_prompts` value (lines 107-116 plus the
loop header): the list the scene loop will iterate, or the marker that
`enumerate(prompts)` raises (a truthy non-iterable payload inside a
dict), which the outer `try` catches. -/
inductive PromptsNorm where
  | list (l : List JsonVal)
  | notIterable

/-- Prompt normalization (image_generator.py lines 107-116): a string is
split into stripped nonempty lines; a list is used as is; a dict
contributes its `image_prompts` entry (a string payload iterates per
character, a dict payload iterates over its keys, any other truthy
payload raises when enumerated); anything else yields no prompts. -/
def normalizePrompts (raw : JsonVal) : PromptsNorm :=
  match raw with
  | .str s => .list ((((s.splitOn "\n").map pyStrip).filter
      (fun t => !t.isEmpty)).map .str)
  | .arr l => .list l
  | .obj kvs =>
    match pyLookup kvs "image_prompts" with
    | some (.arr l) => .list l
    | some (.str s) => .list (s.toList.map (fun c => .str (String.mk [c])))
    | some (.obj kvs2) => .list (((kvs2.map Prod.fst).eraseDups).map .str)
    | some v => if truthy v then .notIterable else .list []
    | none => .list []
  | _ => .list []

/-- `ImagenAgent._run_async_impl` (image_generator.py lines 97-139).
`Path(None)` raises (uncaught); an empty prompt list is reported and ends
the run; otherwise the output key is reset to `[]` and the scene loop
runs, followed by the closing message.  A raising `enumerate` is caught
by the outer `try` (line 136) and reported. -/
def imageGeneratorRun (ag : Agents) (a : Acc) : Except Acc Acc :=
  match a.state.assets_path with
  | none => .error (crash a)
  | some assetsPath =>
    match normalizePrompts a.state.image_prompts with
    | .notIterable =>
      let a1 : Acc := { a with state := { a.state with images_path := some [] } }
      .ok (emit a1 imgName "Error during image generation: ...")
    | .list prompts =>
      if prompts.isEmpty then
        .ok (emit a imgName ("No image prompts found in session state. Raw data: " ++
          pyToText a.state.image_prompts))
      else
        let a1 : Acc := { a with state := { a.state with images_path := some [] } }
        let a2 := scenesLoop ag assetsPath 0 prompts a1
        .ok (emit a2 imgName "All images generated successfully!")

/-- Rendering of `state.get('assets_path')` in the completion message. -/
def optPathText : Option String → String
  | some p => p
  | none => "None"

/-- The theme-approved path (lines 221-236): assign RESEARCH, provision
the workspace, run the researcher, assign SCRIPT_CREATION, and draft the
script. -/
def themeApprovedAdvance (ag : Agents) (a2 : Acc) : Except Acc Acc :=
  let a3 := setStage a2 .RESEARCH
  let a4 := emit a3 selfName "Theme approved! Moving to research..."
  match setupAssetsFolder a4 with
  | .error a => .error a
  | .ok a5 =>
    let a6 := emit a5 selfName "Researching your topic..."
    let a7 := runSubAgent a6 "ResearcherAgent" ag.researchOut
      (fun s v => { s with research_report := v }) (fun s => s.research_report)
    let a8 := setStage a7 .SCRIPT_CREATION
    let a9 := emit a8 selfName "Research complete! Creating your script..."
    .ok (draftScriptAndAsk ag a9)

/-- The script-approved path (lines 274-290): assign ASSET_GENERATION, run
the prompt generator, run the image generator, and emit the completion
message with the workspace path. -/
def scriptApprovedAdvance (ag : Agents) (a2 : Acc) : Except Acc Acc :=
  let a3 := setStage a2 .ASSET_GENERATION
  let a4 := emit a3 selfName "Script approved! Generating your YouTube Short..."
  let a5 := emit a4 selfName "Creating visual prompts..."
  let a6 := runSubAgent a5 "PromptGeneratorAgent" ag.promptOut
    (fun s v => { s with image_prompts := v }) (fun s => s.image_prompts)
  let a7 := emit a6 selfName "Generating images..."
  match imageGeneratorRun ag a7 with
  | .error a => .error a
  | .ok a8 =>
    .ok (emit a8 selfName
      ("YouTube Short creation complete! Check your project folder: " ++
        optPathText a8.state.assets_path))

/-- Outcome of the body of `_run_async_impl` before line 307: an explicit
`return`, or control falling through every branch to the final
"Something went wrong" message. -/
inductive Flow where
  | ret (a : Acc)
  | fall (a : Acc)

/-- The body of `_run_async_impl` (lines 180-306).  Note that line 206
reads the `feedback` key before the feedback agent runs at line 209, so
the reply interpreted in a turn is the pre-turn value of that key. -/
def runBody (ag : Agents) (a0 : Acc) : Except Acc Flow :=
  match effStage a0.state with
  | .THEME_DEFINITION =>
    if truthy a0.state.theme_intent = false then
      match defineThemeAndAsk ag a0 with
      | .ok a => .ok (.ret a)
      | .error a => .error a
    else
      if a0.state.user_responded_to_theme = false then
        if truthy a0.state.feedback then
          let fbRaw := a0.state.feedback
          let a1 := runSubAgent a0 "UserFeedbackAgent" ag.feedbackOut
            (fun s v => { s with feedback := v }) (fun s => s.feedback)
          let ufd := parseJsonResponse fbRaw
          if truthy ufd then
            match pyDictGet ufd "user_input" (.str "") with
            | .error _ => .error (crash a1)
            | .ok userInput =>
              let a2 : Acc := { a1 with state := { a1.state with
                user_feedback := userInput, user_responded_to_theme := true } }
              match isUserApproval userInput with
              | .error _ => .error (crash a2)
              | .ok approved =>
                if approved then
                  match themeApprovedAdvance ag a2 with
                  | .error a => .error a
                  | .ok b => .ok (.ret b)
                else
                  let a3 := emit a2 selfName
                    "I'll revise the theme based on your feedback..."
                  let a4 : Acc := { a3 with state := { a3.state with
                    theme_intent := .null, user_responded_to_theme := false,
                    user_feedback := .str "" } }
                  match defineThemeAndAsk ag a4 with
                  | .ok a => .ok (.ret a)
                  | .error a => .error a
          else .ok (.fall a1)
        else
          match defineThemeAndAsk ag a0 with
          | .ok a => .ok (.ret a)
          | .error a => .error a
      else .ok (.fall a0)
  | .SCRIPT_CREATION =>
    if a0.state.user_responded_to_script = false then
      if truthy a0.state.feedback then
        let fbRaw := a0.state.feedback
        let a1 := runSubAgent a0 "UserFeedbackAgent" ag.feedbackOut
          (fun s v => { s with feedback := v }) (fun s => s.feedback)
        let ufd := parseJsonResponse fbRaw
        if truthy ufd then
          match pyDictGet ufd "user_input" (.str "") with
          | .error _ => .error (crash a1)
          | .ok userInput =>
            let a2 : Acc := { a1 with state := { a1.state with
              user_feedback := userInput, user_responded_to_script := true } }
            match isUserApproval userInput with
            | .error _ => .error (crash a2)
            | .ok approved =>
              if approved then
                match scriptApprovedAdvance ag a2 with
                | .error a => .error a
                | .ok b => .ok (.ret b)
              else
                let a3 := emit a2 selfName
                  "I'll revise the script based on your feedback..."
                let a4 : Acc := { a3 with state := { a3.state with
                  script := .null, user_responded_to_script := false,
                  user_feedback := .str "" } }
                .ok (.ret (draftScriptAndAsk ag a4))
        else .ok (.fall a1)
      else .ok (.ret (draftScriptAndAsk ag a0))
    else .ok (.fall a0)
  | _ => .ok (.fall a0)

/-- One full controller turn: `_run_async_impl` (lines 180-308) including
the final fallthrough message; a crash ends the turn with the state and
events accumulated so far. -/
def runTurn (ag : Agents) (s : SessionState) (fs : List String) : Acc :=
  match runBody ag { state := s, fs := fs, events := [] } with
  | .ok (.ret a) => a
  | .ok (.fall a) =>
    emit a selfName "Something went wrong. Please start over with a new request."
  | .error a => a

/-- The workflow-stage assignments recorded in a turn's event stream, in
order. -/
def stageAssignments (evs : List Ev) : List WorkflowStage :=
  evs.filterMap (fun e => match e with
    | .stageSet st => some st
    | _ => none)

theorem stageAssignments_append (x y : List Ev) :
    stageAssignments (x ++ y) = stageAssignments x ++ stageAssignments y := by
  simp [stageAssignments]

theorem stageAssignments_nil : stageAssignments [] = [] := rfl

/-- `runSubAgent` with no oracle output: the state is unchanged; the run
marker and possibly one error message are appended; no stage
assignment. -/
theorem runSubAgent_spec_none (a : Acc) (n : String)
    (w : SessionState → JsonVal → SessionState)
    (r : SessionState → JsonVal) :
    ∃ extra : List Ev,
      runSubAgent a n none w r =
        { state := a.state, fs := a.fs,
          events := a.events ++ [Ev.agentRun n] ++ extra }
      ∧ stageAssignments extra = [] := by
  unfold runSubAgent
  by_cases h : truthy (r a.state)
  · refine ⟨[], ?_, rfl⟩
    simp [h, emit]
  · refine ⟨[Ev.msg selfName (noOutputMsg n)], ?_, rfl⟩
    simp [h, emit]

/-- `runSubAgent` with an oracle output `v`: the write is applied; the run
marker and possibly one error message are appended; no stage
assignment. -/
theorem runSubAgent_spec_some (a : Acc) (n : String) (v : JsonVal)
    (w : SessionState → JsonVal → SessionState)
    (r : SessionState → JsonVal) :
    ∃ extra : List Ev,
      runSubAgent a n (some v) w r =
        { state := w a.state v, fs := a.fs,
          events := a.events ++ [Ev.agentRun n] ++ extra }
      ∧ stageAssignments extra = [] := by
  unfold runSubAgent
  by_cases h : truthy (r (w a.state v))
  · refine ⟨[], ?_, rfl⟩
    simp [h, emit]
  · refine ⟨[Ev.msg selfName (noOutputMsg n)], ?_, rfl⟩
    simp [h, emit]

theorem stageAssignments_msg (au t : String) :
    stageAssignments [Ev.msg au t] = [] := rfl

theorem stageAssignments_run (n : String) :
    stageAssignments [Ev.agentRun n] = [] := rfl

theorem stageAssignments_exn : stageAssignments [Ev.exn] = [] := rfl

theorem stageAssignments_set (st : WorkflowStage) :
    stageAssignments [Ev.stageSet st] = [st] := rfl

theorem stageAssignments_cons_msg (au t : String) (l : List Ev) :
    stageAssignments (Ev.msg au t :: l) = stageAssignments l := rfl

theorem stageAssignments_cons_run (n : String) (l : List Ev) :
    stageAssignments (Ev.agentRun n :: l) = stageAssignments l := rfl

theorem stageAssignments_cons_exn (l : List Ev) :
    stageAssignments (Ev.exn :: l) = stageAssignments l := rfl

theorem stageAssignments_cons_set (st : WorkflowStage) (l : List Ev) :
    stageAssignments (Ev.stageSet st :: l) = st :: stageAssignments l := rfl

/-- Guard that `_setup_assets_folder` cannot raise on the stored theme
record: its interpretation is falsy (the defaults are used), or it is a
dict whose `theme` entry, when present, is a string. -/
def themeFieldSafe (v : JsonVal) : Bool :=
  if truthy v then
    match v with
    | .obj kvs =>
      match pyLookup kvs "theme" with
      | none => true
      | some (.str _) => true
      | some _ => false
    | _ => false
  else true

/-- Under `themeFieldSafe`, `_setup_assets_folder` succeeds: it stores a
workspace path and the intent, creates the directory, and emits exactly
one message. -/
theorem setupAssetsFolder_spec (a : Acc)
    (hT : truthy a.state.theme_intent = true)
    (hS : themeFieldSafe (parseJsonResponse a.state.theme_intent) = true) :
    ∃ (theme : String) (intentV : JsonVal),
      setupAssetsFolder a = .ok
        { state := { a.state with
            assets_path := some (provisionWorkspace theme a.fs).1,
            intent := intentV },
          fs := (provisionWorkspace theme a.fs).2,
          events := a.events ++ [Ev.msg selfName
            ("Project folder created: " ++ (provisionWorkspace theme a.fs).1)] } := by
  simp only [setupAssetsFolder, hT, if_true, reduceIte]
  unfold themeFieldSafe at hS
  by_cases htr : truthy (parseJsonResponse a.state.theme_intent)
  · rw [if_pos htr] at hS
    simp only [htr, if_true, reduceIte]
    cases hti : parseJsonResponse a.state.theme_intent with
    | obj kvs =>
      rw [hti] at hS
      have hS2 : (match pyLookup kvs "theme" with
          | none => true
          | some (JsonVal.str _) => true
          | some _ => false) = true := hS
      cases hl : pyLookup kvs "theme" with
      | none =>
        refine ⟨"default", (pyLookup kvs "user_intent").getD (.str ""), ?_⟩
        simp [pyDictGet, hl, emit]
      | some u =>
        rw [hl] at hS2
        cases u with
        | str t =>
          refine ⟨t, (pyLookup kvs "user_intent").getD (.str ""), ?_⟩
          simp [pyDictGet, hl, emit]
        | null => simp at hS2
        | bool b => simp at hS2
        | num n => simp at hS2
        | arr l => simp at hS2
        | obj kvs2 => simp at hS2
    | null => rw [hti] at hS; simp at hS
    | bool b => rw [hti] at hS; simp at hS
    | num n => rw [hti] at hS; simp at hS
    | str t => rw [hti] at hS; simp at hS
    | arr l => rw [hti] at hS; simp at hS
  · have htr2 : truthy (parseJsonResponse a.state.theme_intent) = false := by
      simpa using htr
    simp only [htr2, Bool.false_eq_true, if_false, reduceIte]
    refine ⟨"default", .str "", ?_⟩
    simp [emit]

/-- `_draft_script_and_ask_for_feedback` writes the script step's output
(if any), emits messages and the run marker, and records no stage
assignment. -/
theorem draftScriptAndAsk_spec (ag : Agents) (a : Acc) :
    ∃ (sv : JsonVal) (extra : List Ev),
      draftScriptAndAsk ag a =
        { state := { a.state with script := sv },
          fs := a.fs,
          events := a.events ++
            [Ev.msg selfName "Creating your script based on the research...",
             Ev.agentRun "ScriptWriterAgent"] ++ extra }
      ∧ stageAssignments extra = [] := by
  simp only [draftScriptAndAsk]
  cases hc : ag.scriptOut with
  | none =>
    obtain ⟨ex1, he1, hsa1⟩ := runSubAgent_spec_none
      (emit a selfName "Creating your script based on the research...")
      "ScriptWriterAgent"
      (fun s v => { s with script := v }) (fun s => s.script)
    rw [he1]
    dsimp only [emit]
    by_cases h2 : truthy a.state.script
    · rw [if_pos h2]
      refine ⟨a.state.script, ex1 ++
        [Ev.msg selfName (proposeScriptMsg a.state.script)], ?_, ?_⟩
      · simp [emit]
      · simp [stageAssignments_append, hsa1, stageAssignments_msg]
    · rw [if_neg h2]
      refine ⟨a.state.script, ex1, ?_, hsa1⟩
      simp
  | some v =>
    obtain ⟨ex1, he1, hsa1⟩ := runSubAgent_spec_some
      (emit a selfName "Creating your script based on the research...")
      "ScriptWriterAgent" v
      (fun s v => { s with script := v }) (fun s => s.script)
    rw [he1]
    dsimp only [emit]
    by_cases h2 : truthy v
    · rw [if_pos h2]
      refine ⟨v, ex1 ++ [Ev.msg selfName (proposeScriptMsg v)], ?_, ?_⟩
      · simp [emit]
      · simp [stageAssignments_append, hsa1, stageAssignments_msg]
    · rw [if_neg h2]
      refine ⟨v, ex1, ?_, hsa1⟩
      simp

/-- `_define_theme_and_ask_for_feedback` (whether it returns normally or
raises while reading a malformed regenerated theme) writes the theme
step's output (if any), emits messages and the run marker, and records no
stage assignment. -/
theorem defineThemeAndAsk_spec (ag : Agents) (a : Acc) :
    ∃ (tv : JsonVal) (b : Acc) (extra : List Ev),
      (defineThemeAndAsk ag a = .ok b ∨ defineThemeAndAsk ag a = .error b)
      ∧ b.state = { a.state with theme_intent := tv }
      ∧ b.fs = a.fs
      ∧ b.events = a.events ++
          [Ev.msg selfName "Let me analyze your request and propose a theme...",
           Ev.agentRun "ThemeDefinerAgent"] ++ extra
      ∧ stageAssignments extra = []
      ∧ tv = (ag.themeOut.getD a.state.theme_intent) := by
  simp only [defineThemeAndAsk]
  cases hc : ag.themeOut with
  | none =>
    obtain ⟨ex1, he1, hsa1⟩ := runSubAgent_spec_none
      (emit a selfName "Let me analyze your request and propose a theme...")
      "ThemeDefinerAgent"
      (fun s v => { s with theme_intent := v }) (fun s => s.theme_intent)
    rw [he1]
    dsimp only [emit]
    refine ⟨a.state.theme_intent, ?_⟩
    by_cases h2 : truthy a.state.theme_intent
    · rw [if_pos h2]
      by_cases h3 : truthy (parseJsonResponse a.state.theme_intent)
      · rw [if_pos h3]
        cases hg1 : pyDictGet (parseJsonResponse a.state.theme_intent) "theme"
            (.str "Unknown Theme") with
        | ok theme =>
          cases hg2 : pyDictGet (parseJsonResponse a.state.theme_intent) "user_intent"
              (.str "No intent specified") with
          | ok intentV =>
            refine ⟨_, ex1 ++ [Ev.msg selfName (proposeThemeMsg theme intentV)],
              Or.inl rfl, rfl, rfl, by simp [emit],
              by simp [stageAssignments_append, hsa1, stageAssignments_msg], rfl⟩
          | error e2 =>
            refine ⟨_, ex1 ++ [Ev.exn], Or.inr rfl, rfl, rfl, by simp [crash],
              by simp [stageAssignments_append, hsa1, stageAssignments_exn], rfl⟩
        | error e1 =>
          refine ⟨_, ex1 ++ [Ev.exn], Or.inr rfl, rfl, rfl, by simp [crash],
            by simp [stageAssignments_append, hsa1, stageAssignments_exn], rfl⟩
      · rw [if_neg h3]
        refine ⟨_, ex1 ++ [Ev.msg selfName
          "Sorry, I couldn't understand your request. Please try again."],
          Or.inl rfl, rfl, rfl, by simp [emit],
          by simp [stageAssignments_append, hsa1, stageAssignments_msg], rfl⟩
    · rw [if_neg h2]
      exact ⟨_, ex1, Or.inl rfl, rfl, rfl, by simp, hsa1, rfl⟩
  | some nv =>
    obtain ⟨ex1, he1, hsa1⟩ := runSubAgent_spec_some
      (emit a selfName "Let me analyze your request and propose a theme...")
      "ThemeDefinerAgent" nv
      (fun s v => { s with theme_intent := v }) (fun s => s.theme_intent)
    rw [he1]
    dsimp only [emit]
    refine ⟨nv, ?_⟩
    by_cases h2 : truthy nv
    · rw [if_pos h2]
      by_cases h3 : truthy (parseJsonResponse nv)
      · rw [if_pos h3]
        cases hg1 : pyDictGet (parseJsonResponse nv) "theme" (.str "Unknown Theme") with
        | ok theme =>
          cases hg2 : pyDictGet (parseJsonResponse nv) "user_intent"
              (.str "No intent specified") with
          | ok intentV =>
            refine ⟨_, ex1 ++ [Ev.msg selfName (proposeThemeMsg theme intentV)],
              Or.inl rfl, rfl, rfl, by simp [emit],
              by simp [stageAssignments_append, hsa1, stageAssignments_msg], rfl⟩
          | error e2 =>
            refine ⟨_, ex1 ++ [Ev.exn], Or.inr rfl, rfl, rfl, by simp [crash],
              by simp [stageAssignments_append, hsa1, stageAssignments_exn], rfl⟩
        | error e1 =>
          refine ⟨_, ex1 ++ [Ev.exn], Or.inr rfl, rfl, rfl, by simp [crash],
            by simp [stageAssignments_append, hsa1, stageAssignments_exn], rfl⟩
      · rw [if_neg h3]
        refine ⟨_, ex1 ++ [Ev.msg selfName
          "Sorry, I couldn't understand your request. Please try again."],
          Or.inl rfl, rfl, rfl, by simp [emit],
          by simp [stageAssignments_append, hsa1, stageAssignments_msg], rfl⟩
    · rw [if_neg h2]
      exact ⟨_, ex1, Or.inl rfl, rfl, rfl, by simp, hsa1, rfl⟩

/-- The theme-approved path succeeds under a well-formed stored theme: it
assigns RESEARCH then SCRIPT_CREATION, stores a workspace path, runs the
researcher and the script writer, and does not touch the
`user_responded_to_theme` flag again. -/
theorem themeApprovedAdvance_spec (ag : Agents) (a : Acc)
    (hT : truthy a.state.theme_intent = true)
    (hS : themeFieldSafe (parseJsonResponse a.state.theme_intent) = true) :
    ∃ b : Acc, themeApprovedAdvance ag a = .ok b
      ∧ b.state.workflow_stage = some .SCRIPT_CREATION
      ∧ b.state.user_responded_to_theme = a.state.user_responded_to_theme
      ∧ b.state.assets_path.isSome = true
      ∧ stageAssignments b.events
          = stageAssignments a.events ++ [.RESEARCH, .SCRIPT_CREATION]
      ∧ Ev.agentRun "ResearcherAgent" ∈ b.events
      ∧ Ev.agentRun "ScriptWriterAgent" ∈ b.events := by
  simp only [themeApprovedAdvance]
  have hT4 : truthy (emit (setStage a .RESEARCH) selfName
      "Theme approved! Moving to research...").state.theme_intent = true := hT
  have hS4 : themeFieldSafe (parseJsonResponse (emit (setStage a .RESEARCH) selfName
      "Theme approved! Moving to research...").state.theme_intent) = true := hS
  obtain ⟨theme, intentV, hsetup⟩ := setupAssetsFolder_spec _ hT4 hS4
  rw [hsetup]
  dsimp only [emit, setStage]
  cases hro : ag.researchOut with
  | none =>
    obtain ⟨ex2, he2, hsa2⟩ := runSubAgent_spec_none _ "ResearcherAgent"
      (fun s v => { s with research_report := v }) (fun s => s.research_report)
    rw [he2]
    dsimp only [emit, setStage]
    obtain ⟨sv, ex3, he3, hsa3⟩ := draftScriptAndAsk_spec ag _
    rw [he3]
    refine ⟨_, rfl, by simp, by simp, by simp, ?_, by simp, by simp⟩
    simp [stageAssignments_append, stageAssignments_msg, stageAssignments_run,
      stageAssignments_set, stageAssignments_cons_msg, stageAssignments_cons_run,
      stageAssignments_cons_set, stageAssignments_nil, hsa2, hsa3]
  | some rv =>
    obtain ⟨ex2, he2, hsa2⟩ := runSubAgent_spec_some _ "ResearcherAgent" rv
      (fun s v => { s with research_report := v }) (fun s => s.research_report)
    rw [he2]
    dsimp only [emit, setStage]
    obtain ⟨sv, ex3, he3, hsa3⟩ := draftScriptAndAsk_spec ag _
    rw [he3]
    refine ⟨_, rfl, by simp, by simp, by simp, ?_, by simp, by simp⟩
    simp [stageAssignments_append, stageAssignments_msg, stageAssignments_run,
      stageAssignments_set, stageAssignments_cons_msg, stageAssignments_cons_run,
      stageAssignments_cons_set, stageAssignments_nil, hsa2, hsa3]

/-- C1: in stage THEME, with a proposed theme pending and an interpreted
human reply that is an approval word, the turn consumes the reply,
assigns RESEARCH and then SCRIPT_CREATION, provisions the workspace,
invokes the research step and the script-generation step, and ends with
stage SCRIPT_CREATION and a non-null workspace path in state. -/
theorem C1_theme_approval_advances (ag : Agents) (s : SessionState)
    (fs : List String) (kvs : List (String × JsonVal)) (reply : String)
    (hstage : effStage s = .THEME_DEFINITION)
    (htheme : truthy s.theme_intent = true)
    (hsafe : themeFieldSafe (parseJsonResponse s.theme_intent) = true)
    (hresp : s.user_responded_to_theme = false)
    (hfb : truthy s.feedback = true)
    (hparse : parseJsonResponse s.feedback = .obj kvs)
    (hinput : pyLookup kvs "user_input" = some (.str reply))
    (happr : isUserApprovalStr reply = true) :
    (runTurn ag s fs).state.workflow_stage = some .SCRIPT_CREATION
    ∧ (runTurn ag s fs).state.user_responded_to_theme = true
    ∧ (runTurn ag s fs).state.assets_path.isSome = true
    ∧ stageAssignments (runTurn ag s fs).events = [.RESEARCH, .SCRIPT_CREATION]
    ∧ Ev.agentRun "ResearcherAgent" ∈ (runTurn ag s fs).events
    ∧ Ev.agentRun "ScriptWriterAgent" ∈ (runTurn ag s fs).events := by
  have hkvs : kvs ≠ [] := by
    intro h
    rw [h] at hinput
    simp [pyLookup] at hinput
  have htr : truthy (JsonVal.obj kvs) = true := by
    simp [truthy, List.isEmpty_iff, hkvs]
  have hrne : reply ≠ "" := by
    intro h
    rw [h] at happr
    exact absurd happr (by decide)
  have htru : truthy (JsonVal.str reply) = true := by
    have hie : reply.isEmpty = false := by
      rw [Bool.eq_false_iff]
      intro hh
      exact hrne ((String.isEmpty_iff reply).mp hh)
    simp [truthy, hie]
  have happr2 : isUserApproval (.str reply) = .ok true := by
    simp [isUserApproval, htru, happr]
  have hget : pyDictGet (JsonVal.obj kvs) "user_input" (.str "")
      = .ok (.str reply) := by
    simp [pyDictGet, hinput]
  unfold runTurn
  simp only [runBody]
  cases hfo : ag.feedbackOut with
  | none =>
    obtain ⟨ex1, he1, hsa1⟩ := runSubAgent_spec_none
      ({ state := s, fs := fs, events := [] } : Acc) "UserFeedbackAgent"
      (fun st v => { st with feedback := v }) (fun st => st.feedback)
    rw [he1]
    simp only [hstage, htheme, hresp, hfb, hparse, htr, hget, happr2,
      Bool.true_eq_false, if_false, if_true, reduceIte]
    obtain ⟨b, hb, hb1, hb2, hb3, hb4, hb5, hb6⟩ :=
      themeApprovedAdvance_spec ag
        { state := { s with
            user_feedback := JsonVal.str reply,
            user_responded_to_theme := true },
          fs := fs,
          events := [] ++ [Ev.agentRun "UserFeedbackAgent"] ++ ex1 }
        htheme hsafe
    rw [hb]
    refine ⟨hb1, ?_, hb3, ?_, hb5, hb6⟩
    · rw [hb2]
    · rw [hb4]
      simp [stageAssignments_append, stageAssignments_cons_run,
        stageAssignments_nil, hsa1]
  | some fv =>
    obtain ⟨ex1, he1, hsa1⟩ := runSubAgent_spec_some
      ({ state := s, fs := fs, events := [] } : Acc) "UserFeedbackAgent" fv
      (fun st v => { st with feedback := v }) (fun st => st.feedback)
    rw [he1]
    simp only [hstage, htheme, hresp, hfb, hparse, htr, hget, happr2,
      Bool.true_eq_false, if_false, if_true, reduceIte]
    obtain ⟨b, hb, hb1, hb2, hb3, hb4, hb5, hb6⟩ :=
      themeApprovedAdvance_spec ag
        { state := { s with
            feedback := fv,
            user_feedback := JsonVal.str reply,
            user_responded_to_theme := true },
          fs := fs,
          events := [] ++ [Ev.agentRun "UserFeedbackAgent"] ++ ex1 }
        htheme hsafe
    rw [hb]
    refine ⟨hb1, ?_, hb3, ?_, hb5, hb6⟩
    · rw [hb2]
    · rw [hb4]
      simp [stageAssignments_append, stageAssignments_cons_run,
        stageAssignments_nil, hsa1]

/-- C2: in stage THEME with a pending proposed theme and an interpreted
reply outside the approval vocabulary, the turn performs no stage
assignment and leaves the stage unchanged, leaves the theme unapproved,
discards the old theme artifact, and ends with the freshly regenerated
theme written by the re-invoked theme step (the stored feedback text is
reset to the empty string before regeneration). -/
theorem C2_theme_rejection_regenerates (ag : Agents) (s : SessionState)
    (fs : List String) (kvs : List (String × JsonVal)) (reply : String)
    (newTheme : JsonVal)
    (hstage : effStage s = .THEME_DEFINITION)
    (htheme : truthy s.theme_intent = true)
    (hresp : s.user_responded_to_theme = false)
    (hfb : truthy s.feedback = true)
    (hparse : parseJsonResponse s.feedback = .obj kvs)
    (hinput : pyLookup kvs "user_input" = some (.str reply))
    (hrej : isUserApprovalStr reply = false)
    (hnew : ag.themeOut = some newTheme) :
    (runTurn ag s fs).state.workflow_stage = s.workflow_stage
    ∧ stageAssignments (runTurn ag s fs).events = []
    ∧ (runTurn ag s fs).state.user_responded_to_theme = false
    ∧ (runTurn ag s fs).state.user_feedback = .str ""
    ∧ (runTurn ag s fs).state.theme_intent = newTheme
    ∧ Ev.agentRun "ThemeDefinerAgent" ∈ (runTurn ag s fs).events := by
  have hkvs : kvs ≠ [] := by
    intro h
    rw [h] at hinput
    simp [pyLookup] at hinput
  have htr : truthy (JsonVal.obj kvs) = true := by
    simp [truthy, List.isEmpty_iff, hkvs]
  have happr2 : isUserApproval (.str reply) = .ok false := by
    by_cases h : reply.isEmpty
    · simp [isUserApproval, truthy, h]
    · simp [isUserApproval, truthy, h, hrej]
  have hget : pyDictGet (JsonVal.obj kvs) "user_input" (.str "")
      = .ok (.str reply) := by
    simp [pyDictGet, hinput]
  unfold runTurn
  simp only [runBody]
  cases hfo : ag.feedbackOut with
  | none =>
    obtain ⟨ex1, he1, hsa1⟩ := runSubAgent_spec_none
      ({ state := s, fs := fs, events := [] } : Acc) "UserFeedbackAgent"
      (fun st v => { st with feedback := v }) (fun st => st.feedback)
    rw [he1]
    simp only [hstage, htheme, hresp, hfb, hparse, htr, hget, happr2,
      Bool.true_eq_false, Bool.false_eq_true, if_false, if_true, reduceIte, emit]
    obtain ⟨tv, b, extra, hok, hstate, hfs2, hevents, hsa, htv⟩ :=
      defineThemeAndAsk_spec ag
        { state := { s with
            theme_intent := JsonVal.null,
            user_responded_to_theme := false,
            user_feedback := JsonVal.str "" },
          fs := fs,
          events := [] ++ [Ev.agentRun "UserFeedbackAgent"] ++ ex1 ++
            [Ev.msg selfName "I'll revise the theme based on your feedback..."] }
    have htv2 : tv = newTheme := by
      rw [htv, hnew]
      rfl
    rcases hok with h | h <;> rw [h] <;> dsimp only <;>
      exact ⟨by simp [hstate],
        by rw [hevents]
           simp [stageAssignments_append, stageAssignments_cons_run,
             stageAssignments_cons_msg, stageAssignments_nil, hsa1, hsa],
        by simp [hstate], by simp [hstate], by simp [hstate, htv2],
        by rw [hevents]; simp⟩
  | some fv =>
    obtain ⟨ex1, he1, hsa1⟩ := runSubAgent_spec_some
      ({ state := s, fs := fs, events := [] } : Acc) "UserFeedbackAgent" fv
      (fun st v => { st with feedback := v }) (fun st => st.feedback)
    rw [he1]
    simp only [hstage, htheme, hresp, hfb, hparse, htr, hget, happr2,
      Bool.true_eq_false, Bool.false_eq_true, if_false, if_true, reduceIte, emit]
    obtain ⟨tv, b, extra, hok, hstate, hfs2, hevents, hsa, htv⟩ :=
      defineThemeAndAsk_spec ag
        { state := { s with
            feedback := fv,
            theme_intent := JsonVal.null,
            user_responded_to_theme := false,
            user_feedback := JsonVal.str "" },
          fs := fs,
          events := [] ++ [Ev.agentRun "UserFeedbackAgent"] ++ ex1 ++
            [Ev.msg selfName "I'll revise the theme based on your feedback..."] }
    have htv2 : tv = newTheme := by
      rw [htv, hnew]
      rfl
    rcases hok with h | h <;> rw [h] <;> dsimp only <;>
      exact ⟨by simp [hstate],
        by rw [hevents]
           simp [stageAssignments_append, stageAssignments_cons_run,
             stageAssignments_cons_msg, stageAssignments_nil, hsa1, hsa],
        by simp [hstate], by simp [hstate], by simp [hstate, htv2],
        by rw [hevents]; simp⟩

/-! ### The image generator (src/app/agents/image_generator.py) -/

/-- The per-scene attempt message of `_generate_image` (line 69). -/
def attemptMsg (i : Nat) : Ev :=
  Ev.msg imgName ("Generating image for scene " ++ toString (i + 1) ++ "...")

theorem saveImages_spec (d : String) (k : Nat) :
    ∀ (idx : Nat) (a : Acc),
      (saveImages d idx k a).state = a.state
      ∧ ∃ extra, (saveImages d idx k a).events = a.events ++ extra
        ∧ stageAssignments extra = [] := by
  induction k with
  | zero =>
    intro idx a
    exact ⟨rfl, [], by simp [saveImages], rfl⟩
  | succ k ih =>
    intro idx a
    simp only [saveImages]
    obtain ⟨h1, ex, h2, h3⟩ := ih (idx + 1)
      { a with
        fs := a.fs ++ [d ++ "/image_" ++ toString (idx + 1) ++ ".jpg"],
        events := a.events ++ [.msg imgName "Image generated and saved!"] }
    refine ⟨by rw [h1], Ev.msg imgName "Image generated and saved!" :: ex, ?_, ?_⟩
    · rw [h2]
      simp
    · simp [stageAssignments_cons_msg, h3]

theorem generateImage_spec (o : ImgOutcome) (i : Nat) (d : String) (a : Acc) :
    (generateImage o i d a).state = a.state
    ∧ ∃ extra, (generateImage o i d a).events = a.events ++ attemptMsg i :: extra
      ∧ stageAssignments extra = []
      ∧ (o = .empty →
          Ev.msg imgName ("Image generation failed for scene " ++ toString (i + 1))
            ∈ extra)
      ∧ (∀ m, o = .exn m →
          Ev.msg imgName ("Error generating image: " ++ m) ∈ extra) := by
  cases o with
  | empty =>
    refine ⟨rfl, [Ev.msg imgName
      ("Image generation failed for scene " ++ toString (i + 1))], ?_, rfl,
      fun _ => by simp, fun m hm => by simp at hm⟩
    simp [generateImage, emit, attemptMsg]
  | exn m =>
    refine ⟨rfl, [Ev.msg imgName ("Error generating image: " ++ m)], ?_, rfl,
      fun hh => by simp at hh, fun m2 hm => by
        simp only [ImgOutcome.exn.injEq] at hm
        simp [hm]⟩
    simp [generateImage, emit, attemptMsg]
  | ok k =>
    obtain ⟨h1, ex, h2, h3⟩ := saveImages_spec d k 0
      (emit a imgName ("Generating image for scene " ++ toString (i + 1) ++ "..."))
    refine ⟨by simp only [generateImage]; rw [h1]; simp [emit], ex, ?_,
      h3, fun hh => by simp at hh, fun m hm => by simp at hm⟩
    simp only [generateImage]
    rw [h2]
    simp [emit, attemptMsg]

theorem sceneDirs_cons (ap : String) (idx n : Nat) :
    [ap ++ "/scene_" ++ toString (idx + 1) ++ "/images"] ++
      (List.range n).map
        (fun k => ap ++ "/scene_" ++ toString (idx + 1 + k + 1) ++ "/images")
    = (List.range (n + 1)).map
        (fun k => ap ++ "/scene_" ++ toString (idx + k + 1) ++ "/images") := by
  rw [List.range_succ_eq_map]
  simp only [List.map_cons, List.map_map, List.singleton_append]
  congr 1
  case e_tail =>
    apply List.map_congr_left
    intro x hx
    simp only [Function.comp_apply, Nat.succ_eq_add_one]
    rw [show idx + 1 + x + 1 = idx + (x + 1) + 1 by omega]

theorem scenesLoop_spec (ag : Agents) (ap : String) :
    ∀ (ps : List JsonVal) (idx : Nat) (a : Acc) (l0 : List String),
      a.state.images_path = some l0 →
      ((scenesLoop ag ap idx ps a).state = { a.state with
          images_path := some (l0 ++
            (List.range ps.length).map (fun k =>
              ap ++ "/scene_" ++ toString (idx + k + 1) ++ "/images")) })
      ∧ ∃ extra, (scenesLoop ag ap idx ps a).events = a.events ++ extra
        ∧ stageAssignments extra = []
        ∧ (∀ j < ps.length, attemptMsg (idx + j) ∈ extra)
        ∧ (∀ j < ps.length, ag.imageOutcome (idx + j) = .empty →
            Ev.msg imgName ("Image generation failed for scene " ++
              toString (idx + j + 1)) ∈ extra)
        ∧ (∀ j < ps.length, ∀ m, ag.imageOutcome (idx + j) = .exn m →
            Ev.msg imgName ("Error generating image: " ++ m) ∈ extra) := by
  intro ps
  induction ps with
  | nil =>
    intro idx a l0 hl0
    refine ⟨?_, [], by simp [scenesLoop], rfl, by simp, by simp, by simp⟩
    simp only [scenesLoop, List.length_nil, List.range_zero, List.map_nil,
      List.append_nil]
    rw [← hl0]
  | cons p ps ih =>
    intro idx a l0 hl0
    simp only [scenesLoop, hl0, Option.getD_some]
    obtain ⟨hg1, gex, hg2, hg3, hg4, hg5⟩ := generateImage_spec
      (ag.imageOutcome idx) idx (ap ++ "/scene_" ++ toString (idx + 1) ++ "/images")
      { a with
        fs := mkdirParents a.fs (ap ++ "/scene_" ++ toString (idx + 1) ++ "/images"),
        state := { a.state with
          images_path := some (l0 ++
            [ap ++ "/scene_" ++ toString (idx + 1) ++ "/images"]) } }
    obtain ⟨hi1, iex, hi2, hi3, hi4, hi5, hi6⟩ := ih (idx + 1) _
      (l0 ++ [ap ++ "/scene_" ++ toString (idx + 1) ++ "/images"])
      (by rw [hg1])
    refine ⟨?_, attemptMsg idx :: (gex ++ iex), ?_, ?_, ?_, ?_, ?_⟩
    · rw [hi1, hg1]
      dsimp only
      simp only [List.append_assoc, List.length_cons]
      rw [sceneDirs_cons ap idx ps.length]
    · rw [hi2, hg2]
      dsimp only [emit]
      simp
    · simp only [stageAssignments_cons_msg, attemptMsg, stageAssignments_append,
        hg3, hi3, List.append_nil]
    · intro j hj
      cases j with
      | zero =>
        simp [attemptMsg]
      | succ j =>
        have hj2 : j < ps.length := by
          simp only [List.length_cons] at hj
          omega
        have := hi4 j hj2
        rw [show idx + (j + 1) = idx + 1 + j by omega]
        simp only [List.mem_cons, List.mem_append]
        exact Or.inr (Or.inr this)
    · intro j hj hout
      cases j with
      | zero =>
        rw [Nat.add_zero] at hout
        have := hg4 hout
        simp only [List.mem_cons, List.mem_append]
        exact Or.inr (Or.inl this)
      | succ j =>
        have hj2 : j < ps.length := by
          simp only [List.length_cons] at hj
          omega
        rw [show idx + (j + 1) = idx + 1 + j by omega] at hout ⊢
        have := hi5 j hj2 hout
        simp only [List.mem_cons, List.mem_append]
        exact Or.inr (Or.inr this)
    · intro j hj m hout
      cases j with
      | zero =>
        rw [Nat.add_zero] at hout
        have := hg5 m hout
        simp only [List.mem_cons, List.mem_append]
        exact Or.inr (Or.inl this)
      | succ j =>
        have hj2 : j < ps.length := by
          simp only [List.length_cons] at hj
          omega
        rw [show idx + (j + 1) = idx + 1 + j by omega] at hout
        have := hi6 j hj2 m hout
        simp only [List.mem_cons, List.mem_append]
        exact Or.inr (Or.inr this)

/-- C9: in one ASSETS-stage invocation over a list of prompts, a scene
whose generation fails (empty result or caught exception) has its failure
reported, and every scene in the list still gets its generation attempt.
The run itself completes normally. -/
theorem C9_scene_failure_isolated (ag : Agents) (a : Acc) (ap : String)
    (prompts : List JsonVal)
    (hap : a.state.assets_path = some ap)
    (hpr : a.state.image_prompts = .arr prompts)
    (hne : prompts ≠ []) :
    ∃ b, imageGeneratorRun ag a = .ok b
      ∧ (∀ i < prompts.length, ag.imageOutcome i = .empty →
          Ev.msg imgName ("Image generation failed for scene " ++ toString (i + 1))
            ∈ b.events)
      ∧ (∀ i < prompts.length, ∀ m, ag.imageOutcome i = .exn m →
          Ev.msg imgName ("Error generating image: " ++ m) ∈ b.events)
      ∧ (∀ j < prompts.length, attemptMsg j ∈ b.events) := by
  have hne2 : prompts.isEmpty = false := by
    rw [Bool.eq_false_iff]
    intro hh
    exact hne (List.isEmpty_iff.mp hh)
  simp only [imageGeneratorRun, hap, hpr, normalizePrompts, hne2,
    Bool.false_eq_true, if_false, reduceIte]
  obtain ⟨h1, ex, h2, h3, h4, h5, h6⟩ := scenesLoop_spec ag ap prompts 0
    { a with
      state := { a.state with
        image_prompts := JsonVal.arr prompts,
        assets_path := some ap,
        images_path := some [] } } [] rfl
  dsimp only at h1 h2
  refine ⟨_, rfl, ?_, ?_, ?_⟩
  · intro i hi hout
    have hm := h5 i hi (by rwa [Nat.zero_add])
    have hz : (0 : Nat) + i + 1 = i + 1 := by omega
    rw [hz] at hm
    simp only [emit, h2]
    exact List.mem_append_left _ (List.mem_append_right _ hm)
  · intro i hi m hout
    have hm := h6 i hi m (by rwa [Nat.zero_add])
    simp only [emit, h2]
    exact List.mem_append_left _ (List.mem_append_right _ hm)
  · intro j hj
    have hm := h4 j hj
    rw [Nat.zero_add] at hm
    simp only [emit, h2]
    exact List.mem_append_left _ (List.mem_append_right _ hm)

/-- C10: after one ASSETS-stage invocation over a non-empty prompt list,
the `images_path` output key holds exactly one scene directory per
prompt, in order, of the form `assets_path/scene_n/images` — regardless
of the per-scene generation outcomes, because each entry is recorded
before the scene's generation attempt. -/
theorem C10_images_path_records_all_scenes (ag : Agents) (a : Acc) (ap : String)
    (prompts : List JsonVal)
    (hap : a.state.assets_path = some ap)
    (hpr : a.state.image_prompts = .arr prompts)
    (hne : prompts ≠ []) :
    ∃ b, imageGeneratorRun ag a = .ok b
      ∧ b.state.images_path = some ((List.range prompts.length).map
          (fun i => ap ++ "/scene_" ++ toString (i + 1) ++ "/images")) := by
  have hne2 : prompts.isEmpty = false := by
    rw [Bool.eq_false_iff]
    intro hh
    exact hne (List.isEmpty_iff.mp hh)
  simp only [imageGeneratorRun, hap, hpr, normalizePrompts, hne2,
    Bool.false_eq_true, if_false, reduceIte]
  obtain ⟨h1, ex, h2, h3, h4, h5, h6⟩ := scenesLoop_spec ag ap prompts 0
    { a with
      state := { a.state with
        image_prompts := JsonVal.arr prompts,
        assets_path := some ap,
        images_path := some [] } } [] rfl
  dsimp only at h1 h2
  refine ⟨_, rfl, ?_⟩
  simp only [emit]
  rw [h1]
  dsimp only
  simp only [List.nil_append, Nat.zero_add]

/-- Concrete prompt list for the image-generator witnesses. -/
def promptsW : List JsonVal := [.str "a close-up of pasta", .str "a wide kitchen shot"]

/-- Concrete pre-invocation accumulator for the image-generator
witnesses. -/
def accW : Acc :=
  { state := { assets_path := some "projects/demo", image_prompts := .arr promptsW },
    fs := [], events := [] }

/-- Concrete oracles for the image-generator witnesses: scene 1 fails with
an empty result, later scenes succeed. -/
def agW : Agents :=
  { imageOutcome := fun i => if i = 0 then .empty else .ok 1 }

/-- Witness for C9 at a concrete two-scene run whose first scene fails. -/
theorem C9_scene_failure_isolated_witness :
    accW.state.assets_path = some "projects/demo"
    ∧ accW.state.image_prompts = .arr promptsW
    ∧ promptsW ≠ []
    ∧ (∃ b, imageGeneratorRun agW accW = .ok b
      ∧ (∀ i < promptsW.length, agW.imageOutcome i = .empty →
          Ev.msg imgName ("Image generation failed for scene " ++ toString (i + 1))
            ∈ b.events)
      ∧ (∀ i < promptsW.length, ∀ m, agW.imageOutcome i = .exn m →
          Ev.msg imgName ("Error generating image: " ++ m) ∈ b.events)
      ∧ (∀ j < promptsW.length, attemptMsg j ∈ b.events)) :=
  ⟨rfl, rfl, by simp [promptsW],
    C9_scene_failure_isolated agW accW "projects/demo" promptsW rfl rfl
      (by simp [promptsW])⟩

/-- Witness for C10 at the same concrete run: both scene directories are
recorded although scene 1's generation fails. -/
theorem C10_images_path_records_all_scenes_witness :
    accW.state.assets_path = some "projects/demo"
    ∧ accW.state.image_prompts = .arr promptsW
    ∧ promptsW ≠ []
    ∧ (∃ b, imageGeneratorRun agW accW = .ok b
      ∧ b.state.images_path = some ((List.range promptsW.length).map
          (fun i => "projects/demo" ++ "/scene_" ++ toString (i + 1) ++ "/images"))) :=
  ⟨rfl, rfl, by simp [promptsW],
    C10_images_path_records_all_scenes agW accW "projects/demo" promptsW rfl rfl
      (by simp [promptsW])⟩

/-! ### The checkpoint approval predicate (src/app/agent.py lines 109-113
and 213-220) -/

/-- The approval decision of one checkpoint turn (lines 213-220, and
identically lines 266-273): interpret the stored raw reply with
`_parse_json_response`, extract its `user_input` entry with default `""`,
and apply `_is_user_approval`.  `.error` is the uncaught exception of
`.get`/`.lower()` on ill-typed values; a falsy interpreted record never
reaches the predicate (the turn falls through), decided `false` here. -/
def checkpointApproved (raw : JsonVal) : Except Unit Bool :=
  let ufd := parseJsonResponse raw
  if truthy ufd then
    match pyDictGet ufd "user_input" (.str "") with
    | .error _ => .error ()
    | .ok userInput => isUserApproval userInput
  else .ok false

/-- `_is_user_approval` on a string reduces to the vocabulary test whether
or not the string is empty (the empty string is falsy and not in the
vocabulary). -/
theorem isUserApproval_str (s : String) :
    isUserApproval (.str s) = .ok (isUserApprovalStr s) := by
  cases hb : s.isEmpty with
  | true =>
    have he : s = "" := (String.isEmpty_iff s).mp hb
    subst he
    rfl
  | false =>
    have ht : truthy (JsonVal.str s) = true := by simp [truthy, hb]
    simp only [isUserApproval, ht, if_true, reduceIte]

/-- C4 (amended): the checkpoint approval predicate approves exactly when
the interpreted reply record is a dict whose `user_input` entry is a
string whose lower-cased, trimmed form is in the fixed vocabulary
\x7b"yes","approve","good","perfect","ok","okay"\x7d.  A structured
`approved: true` flag is never consulted, and every reply outside the
vocabulary is a rejection. -/
theorem C4_approval_vocabulary_only (raw : JsonVal) (b : Bool)
    (h : checkpointApproved raw = .ok b) :
    b = true ↔ ∃ (kvs : List (String × JsonVal)) (s : String),
      parseJsonResponse raw = JsonVal.obj kvs
      ∧ pyLookup kvs "user_input" = some (JsonVal.str s)
      ∧ approvalWords.contains (pyStrip (pyLower s)) = true := by
  simp only [checkpointApproved] at h
  cases hp : parseJsonResponse raw with
  | null =>
    rw [hp] at h
    simp only [truthy, Bool.false_eq_true, if_false, reduceIte] at h
    injection h with hb
    subst hb
    simp
  | bool bb =>
    rw [hp] at h
    cases bb with
    | false =>
      simp only [truthy, Bool.false_eq_true, if_false, reduceIte] at h
      injection h with hb
      subst hb
      simp
    | true =>
      simp only [truthy, if_true, reduceIte, pyDictGet] at h
      simp at h
  | num n =>
    rw [hp] at h
    by_cases hn : n = 0
    · subst hn
      simp only [truthy, bne_self_eq_false, Bool.false_eq_true, if_false,
        reduceIte] at h
      injection h with hb
      subst hb
      simp
    · have hn2 : (n != 0) = true := by simpa using hn
      simp only [truthy, hn2, if_true, reduceIte, pyDictGet] at h
      simp at h
  | str s =>
    rw [hp] at h
    by_cases hs : s.isEmpty
    · simp only [truthy, hs, Bool.not_true, Bool.false_eq_true, if_false,
        reduceIte] at h
      injection h with hb
      subst hb
      simp
    · have hs2 : s.isEmpty = false := Bool.eq_false_iff.mpr hs
      simp only [truthy, hs2, Bool.not_false, if_true, reduceIte, pyDictGet] at h
      simp at h
  | arr l =>
    rw [hp] at h
    by_cases hl : l.isEmpty
    · simp only [truthy, hl, Bool.not_true, Bool.false_eq_true, if_false,
        reduceIte] at h
      injection h with hb
      subst hb
      simp
    · have hl2 : l.isEmpty = false := Bool.eq_false_iff.mpr hl
      simp only [truthy, hl2, Bool.not_false, if_true, reduceIte, pyDictGet] at h
      simp at h
  | obj kvs =>
    rw [hp] at h
    simp only [truthy, pyDictGet] at h
    by_cases hk : kvs.isEmpty
    · rw [hk] at h
      simp only [Bool.not_true, Bool.false_eq_true, if_false, reduceIte] at h
      injection h with hb
      subst hb
      have hke : kvs = [] := List.isEmpty_iff.mp hk
      subst hke
      simp [pyLookup]
    · have hk2 : kvs.isEmpty = false := Bool.eq_false_iff.mpr hk
      rw [hk2] at h
      simp only [Bool.not_false, if_true, reduceIte] at h
      cases hl : pyLookup kvs "user_input" with
      | none =>
        rw [hl] at h
        simp only [Option.getD_none] at h
        rw [isUserApproval_str] at h
        have h0 : isUserApprovalStr "" = false := by decide
        rw [h0] at h
        injection h with hb
        subst hb
        simp only [Bool.false_eq_true, false_iff]
        rintro ⟨kvs2, s2, hpe, hl2, hc⟩
        injection hpe with hke
        subst hke
        rw [hl] at hl2
        exact Option.noConfusion hl2
      | some v =>
        rw [hl] at h
        simp only [Option.getD_some] at h
        cases v with
        | str s =>
          rw [isUserApproval_str] at h
          injection h with hb
          subst hb
          constructor
          · intro hb2
            exact ⟨kvs, s, rfl, hl, hb2⟩
          · rintro ⟨kvs2, s2, hpe, hl2, hc⟩
            injection hpe with hke
            subst hke
            rw [hl] at hl2
            injection hl2 with hv
            injection hv with hs2
            subst hs2
            exact hc
        | null =>
          simp only [isUserApproval, truthy, Bool.false_eq_true, if_false,
            reduceIte] at h
          injection h with hb
          subst hb
          simp only [Bool.false_eq_true, false_iff]
          rintro ⟨kvs2, s2, hpe, hl2, hc⟩
          injection hpe with hke
          subst hke
          rw [hl] at hl2
          injection hl2 with hv
          exact JsonVal.noConfusion hv
        | bool bb =>
          cases bb with
          | true =>
            simp only [isUserApproval, truthy, if_true, reduceIte] at h
            simp at h
          | false =>
            simp only [isUserApproval, truthy, Bool.false_eq_true, if_false,
              reduceIte] at h
            injection h with hb
            subst hb
            simp only [Bool.false_eq_true, false_iff]
            rintro ⟨kvs2, s2, hpe, hl2, hc⟩
            injection hpe with hke
            subst hke
            rw [hl] at hl2
            injection hl2 with hv
            exact JsonVal.noConfusion hv
        | num n =>
          by_cases hn : n = 0
          · subst hn
            simp only [isUserApproval, truthy, bne_self_eq_false,
              Bool.false_eq_true, if_false, reduceIte] at h
            injection h with hb
            subst hb
            simp only [Bool.false_eq_true, false_iff]
            rintro ⟨kvs2, s2, hpe, hl2, hc⟩
            injection hpe with hke
            subst hke
            rw [hl] at hl2
            injection hl2 with hv
            exact JsonVal.noConfusion hv
          · have hn2 : (n != 0) = true := by simpa using hn
            simp only [isUserApproval, truthy, hn2, if_true, reduceIte] at h
            simp at h
        | arr l2 =>
          by_cases ha : l2.isEmpty
          · simp only [isUserApproval, truthy, ha, Bool.not_true,
              Bool.false_eq_true, if_false, reduceIte] at h
            injection h with hb
            subst hb
            simp only [Bool.false_eq_true, false_iff]
            rintro ⟨kvs2, s2, hpe, hl2, hc⟩
            injection hpe with hke
            subst hke
            rw [hl] at hl2
            injection hl2 with hv
            exact JsonVal.noConfusion hv
          · have ha2 : l2.isEmpty = false := Bool.eq_false_iff.mpr ha
            simp only [isUserApproval, truthy, ha2, Bool.not_false, if_true,
              reduceIte] at h
            simp at h
        | obj kvs3 =>
          by_cases ho : kvs3.isEmpty
          · simp only [isUserApproval, truthy, ho, Bool.not_true,
              Bool.false_eq_true, if_false, reduceIte] at h
            injection h with hb
            subst hb
            simp only [Bool.false_eq_true, false_iff]
            rintro ⟨kvs2, s2, hpe, hl2, hc⟩
            injection hpe with hke
            subst hke
            rw [hl] at hl2
            injection hl2 with hv
            exact JsonVal.noConfusion hv
          · have ho2 : kvs3.isEmpty = false := Bool.eq_false_iff.mpr ho
            simp only [isUserApproval, truthy, ho2, Bool.not_false, if_true,
              reduceIte] at h
            simp at h

/-- A structured reply record carrying an explicit `approved: true` flag
next to a non-vocabulary `user_input` text. -/
def flaggedReply : JsonVal :=
  JsonVal.obj [("approved", JsonVal.bool true),
    ("user_input", JsonVal.str "use a darker tone")]

/-- Counterexample to C4 as stated: a structured reply with an explicit
`approved: true` flag is still decided as a rejection (the flag is never
read), and the rejection turn then resets the stored `user_feedback` to
`""` instead of forwarding the raw reply text as feedback. -/
theorem C4_approved_flag_ignored_counterexample :
    checkpointApproved flaggedReply = .ok false
    ∧ (runTurn
        { themeOut := some (JsonVal.obj [("theme", JsonVal.str "Pasta"),
            ("user_intent", JsonVal.str "demo")]) }
        { theme_intent := JsonVal.str "placeholder", feedback := flaggedReply }
        []).state.user_feedback = JsonVal.str "" :=
  ⟨rfl, rfl⟩

/-- Witness for C4 at the reply `\x7b"user_input": "yes"\x7d`: the
predicate approves, and the characterization instantiates. -/
theorem C4_approval_vocabulary_only_witness :
    checkpointApproved (JsonVal.obj [("user_input", JsonVal.str "yes")]) = .ok true
    ∧ (true = true ↔ ∃ (kvs : List (String × JsonVal)) (s : String),
        parseJsonResponse (JsonVal.obj [("user_input", JsonVal.str "yes")])
          = JsonVal.obj kvs
        ∧ pyLookup kvs "user_input" = some (JsonVal.str s)
        ∧ approvalWords.contains (pyStrip (pyLower s)) = true) :=
  ⟨rfl, C4_approval_vocabulary_only
    (JsonVal.obj [("user_input", JsonVal.str "yes")]) true rfl⟩

/-! ### C6: the interpreter on undecodable non-empty input -/

/-- Counterexample to C6 as stated: `"hello"` is non-empty (truthy), yet
the interpreter returns null for it — there is no degraded best-effort
result on a decode failure. -/
theorem C6_nonempty_input_null_counterexample :
    truthy (JsonVal.str "hello") = true
    ∧ parseJsonResponse (JsonVal.str "hello") = JsonVal.null :=
  ⟨rfl, rfl⟩

/-- C6 (amended): on a string whose fence-stripped text fails to decode,
`_parse_json_response` returns null (Python `None`) even when the input
is non-empty; there is no best-effort fallback. -/
theorem C6_decode_failure_returns_null (s : String)
    (h : jsonLoads (fenceStrip s) = none) :
    parseJsonResponse (.str s) = .null := by
  simp only [parseJsonResponse, h, Option.getD_none]

/-- Witness for C6 at the non-empty undecodable input `"hello"`. -/
theorem C6_decode_failure_returns_null_witness :
    jsonLoads (fenceStrip "hello") = none
    ∧ parseJsonResponse (.str "hello") = .null :=
  ⟨rfl, C6_decode_failure_returns_null "hello" rfl⟩

/-! ### C5: a production step with no output does not abort the turn -/

/-- Session state for the C5 run: stage THEME, a stored (dict) theme, and
a pending approval reply. -/
def s5 : SessionState :=
  { theme_intent := JsonVal.obj [("theme", JsonVal.str "Pasta Cooking"),
      ("user_intent", JsonVal.str "demo")],
    feedback := JsonVal.obj [("user_input", JsonVal.str "yes")] }

/-- Oracles for the C5 run: the researcher produces no output; the script
writer still produces a script. -/
def ag5 : Agents :=
  { scriptOut := some (JsonVal.str "A short script") }

/-- C5, the divergence at a concrete run: when the researcher leaves its
output key empty, the turn emits the "did not produce output. Aborting
workflow." error, yet the same turn still assigns SCRIPT_CREATION and
runs the script writer — the workflow is not aborted and the stage still
advances past the failed step. -/
theorem C5_no_output_still_advances :
    Ev.msg selfName (noOutputMsg "ResearcherAgent") ∈ (runTurn ag5 s5 []).events
    ∧ (runTurn ag5 s5 []).state.workflow_stage = some WorkflowStage.SCRIPT_CREATION
    ∧ Ev.agentRun "ScriptWriterAgent" ∈ (runTurn ag5 s5 []).events := by
  refine ⟨by decide, rfl, by decide⟩

/-! ### C8: the workspace slug and provisioning idempotence -/

/-- ASCII lowercasing commutes with the space-to-underscore substitution
on one character: lowering never produces or consumes a space. -/
theorem pyLowerChar_underscore_comm (c : Char) :
    (if pyLowerChar c = ' ' then '_' else pyLowerChar c)
      = pyLowerChar (if c = ' ' then '_' else c) := by
  by_cases hc : c = ' '
  · subst hc
    decide
  · rw [if_neg hc]
    by_cases h : 'A' ≤ c ∧ c ≤ 'Z'
    · have h1 : 65 ≤ c.toNat := h.1
      have h2 : c.toNat ≤ 90 := h.2
      have hv : (c.toNat + 32).isValidChar := by
        constructor
        omega
      have htn : (Char.ofNat (c.toNat + 32)).toNat = c.toNat + 32 := by
        unfold Char.ofNat
        rw [dif_pos hv]
        rfl
      have hlc : pyLowerChar c = Char.ofNat (c.toNat + 32) := by
        unfold pyLowerChar
        rw [if_pos h]
      have hne : pyLowerChar c ≠ ' ' := by
        rw [hlc]
        intro he
        have h3 := congrArg Char.toNat he
        rw [htn] at h3
        have hsp : (' ' : Char).toNat = 32 := rfl
        rw [hsp] at h3
        omega
      rw [if_neg hne]
    · have hlc : pyLowerChar c = c := by
        unfold pyLowerChar
        rw [if_neg h]
      rw [hlc, if_neg hc]

/-- `theme.replace(" ", "_").lower()` equals
`theme.lower().replace(" ", "_")`: the slug can be read in either
order. -/
theorem replace_lower_comm (s : String) :
    replaceSpaceByUnderscore (pyLower s) = pyLower (replaceSpaceByUnderscore s) := by
  simp only [replaceSpaceByUnderscore, pyLower, String.toList]
  congr 1
  rw [List.map_map, List.map_map]
  apply List.map_congr_left
  intro c _
  simp only [Function.comp_apply]
  exact pyLowerChar_underscore_comm c

/-- A just-created directory is present in the filesystem model. -/
theorem mkdirParents_mem (fs : List String) (p : String) :
    p ∈ mkdirParents fs p := by
  unfold mkdirParents
  by_cases h : p ∈ fs
  · rw [if_pos h]
    exact h
  · rw [if_neg h]
    simp

/-- Creating the same directory twice changes nothing the second time. -/
theorem mkdirParents_idem (fs : List String) (p : String) :
    mkdirParents (mkdirParents fs p) p = mkdirParents fs p := by
  rw [show mkdirParents (mkdirParents fs p) p
      = if p ∈ mkdirParents fs p then mkdirParents fs p
        else mkdirParents fs p ++ [p] from rfl,
    if_pos (mkdirParents_mem fs p)]

/-- C8: the workspace provisioner returns `projects/<slug>` where the slug
is the theme label lower-cased with spaces replaced by underscores (the
two normalizations commute, so either reading is exact), and provisioning
again with the same label yields the same path and leaves the filesystem
unchanged: a pre-existing directory is not an error. -/
theorem C8_workspace_slug_idempotent (theme : String) (fs : List String) :
    (provisionWorkspace theme fs).1
        = "projects/" ++ replaceSpaceByUnderscore (pyLower theme)
    ∧ (provisionWorkspace theme (provisionWorkspace theme fs).2).1
        = (provisionWorkspace theme fs).1
    ∧ (provisionWorkspace theme (provisionWorkspace theme fs).2).2
        = (provisionWorkspace theme fs).2 := by
  refine ⟨?_, rfl, ?_⟩
  · simp only [provisionWorkspace]
    rw [replace_lower_comm]
  · simp only [provisionWorkspace]
    exact mkdirParents_idem fs ("projects/" ++ pyLower (replaceSpaceByUnderscore theme))

/-- Witness for C1 at a concrete approval turn: a stored theme dict and
the reply `"yes"`. -/
theorem C1_theme_approval_advances_witness :
    effStage s5 = .THEME_DEFINITION
    ∧ truthy s5.theme_intent = true
    ∧ isUserApprovalStr "yes" = true
    ∧ ((runTurn ag5 s5 []).state.workflow_stage = some WorkflowStage.SCRIPT_CREATION
      ∧ (runTurn ag5 s5 []).state.user_responded_to_theme = true
      ∧ (runTurn ag5 s5 []).state.assets_path.isSome = true
      ∧ stageAssignments (runTurn ag5 s5 []).events
          = [WorkflowStage.RESEARCH, WorkflowStage.SCRIPT_CREATION]
      ∧ Ev.agentRun "ResearcherAgent" ∈ (runTurn ag5 s5 []).events
      ∧ Ev.agentRun "ScriptWriterAgent" ∈ (runTurn ag5 s5 []).events) :=
  ⟨rfl, rfl, rfl,
    C1_theme_approval_advances ag5 s5 [] [("user_input", JsonVal.str "yes")]
      "yes" rfl rfl rfl rfl rfl rfl rfl rfl⟩

/-- Session state for the C2 witness: a pending proposed theme and the
reply "no thanks". -/
def s2W : SessionState :=
  { theme_intent := JsonVal.str "an earlier proposal",
    feedback := JsonVal.obj [("user_input", JsonVal.str "no thanks")] }

/-- Oracles for the C2 witness: the regenerated theme record. -/
def ag2W : Agents :=
  { themeOut := some (JsonVal.obj [("theme", JsonVal.str "Coffee Art"),
      ("user_intent", JsonVal.str "demo")]) }

/-- Witness for C2 at a concrete rejection turn. -/
theorem C2_theme_rejection_regenerates_witness :
    effStage s2W = .THEME_DEFINITION
    ∧ truthy s2W.theme_intent = true
    ∧ isUserApprovalStr "no thanks" = false
    ∧ ((runTurn ag2W s2W []).state.workflow_stage = s2W.workflow_stage
      ∧ stageAssignments (runTurn ag2W s2W []).events = []
      ∧ (runTurn ag2W s2W []).state.user_responded_to_theme = false
      ∧ (runTurn ag2W s2W []).state.user_feedback = .str ""
      ∧ (runTurn ag2W s2W []).state.theme_intent
          = JsonVal.obj [("theme", JsonVal.str "Coffee Art"),
              ("user_intent", JsonVal.str "demo")]
      ∧ Ev.agentRun "ThemeDefinerAgent" ∈ (runTurn ag2W s2W []).events) :=
  ⟨rfl, rfl, rfl,
    C2_theme_rejection_regenerates ag2W s2W []
      [("user_input", JsonVal.str "no thanks")] "no thanks"
      (JsonVal.obj [("theme", JsonVal.str "Coffee Art"),
        ("user_intent", JsonVal.str "demo")])
      rfl rfl rfl rfl rfl rfl rfl rfl⟩

/-! ### C3: stage assignments are monotone in every turn -/

/-- The accumulator a turn's body ends with, whatever the control path. -/
def flowAcc : Except Acc Flow → Acc
  | .ok (.ret a) => a
  | .ok (.fall a) => a
  | .error a => a

theorem sa_emit (a : Acc) (n t : String) :
    stageAssignments (emit a n t).events = stageAssignments a.events := by
  simp [emit, stageAssignments_append, stageAssignments_msg]

theorem sa_crash (a : Acc) :
    stageAssignments (crash a).events = stageAssignments a.events := by
  simp [crash, stageAssignments_append, stageAssignments_exn]

theorem sa_setStage (a : Acc) (st : WorkflowStage) :
    stageAssignments (setStage a st).events = stageAssignments a.events ++ [st] := by
  simp [setStage, stageAssignments_append, stageAssignments_set]

theorem sa_runSubAgent (a : Acc) (n : String) (out : Option JsonVal)
    (w : SessionState → JsonVal → SessionState) (r : SessionState → JsonVal) :
    stageAssignments (runSubAgent a n out w r).events = stageAssignments a.events := by
  simp only [runSubAgent]
  split
  · dsimp only
    simp [stageAssignments_append, stageAssignments_run]
  · simp [emit, stageAssignments_append, stageAssignments_cons_run,
      stageAssignments_cons_msg, stageAssignments_nil]

theorem sa_draftScriptAndAsk (ag : Agents) (a : Acc) :
    stageAssignments (draftScriptAndAsk ag a).events = stageAssignments a.events := by
  simp only [draftScriptAndAsk]
  split
  · simp [sa_emit, sa_runSubAgent]
  · simp [sa_emit, sa_runSubAgent]

theorem sa_defineThemeAndAsk (ag : Agents) (a b : Acc)
    (h : defineThemeAndAsk ag a = .ok b ∨ defineThemeAndAsk ag a = .error b) :
    stageAssignments b.events = stageAssignments a.events := by
  simp only [defineThemeAndAsk] at h
  rcases h with h | h <;>
    (split at h <;> ((try split at h) <;> ((try split at h) <;>
      (first
        | (injection h with hb
           subst hb
           simp [sa_emit, sa_crash, sa_runSubAgent])
        | injection h))))

theorem sa_setupAssetsFolder (a b : Acc)
    (h : setupAssetsFolder a = .ok b ∨ setupAssetsFolder a = .error b) :
    stageAssignments b.events = stageAssignments a.events := by
  simp only [setupAssetsFolder] at h
  rcases h with h | h <;>
    (split at h <;> ((try split at h) <;> ((try split at h) <;>
      (first
        | (injection h with hb
           subst hb
           simp [sa_emit, sa_crash, sa_runSubAgent])
        | injection h))))

theorem sa_saveImages (d : String) (k : Nat) :
    ∀ (idx : Nat) (a : Acc),
      stageAssignments (saveImages d idx k a).events = stageAssignments a.events := by
  induction k with
  | zero =>
    intro idx a
    rfl
  | succ n ih =>
    intro idx a
    simp only [saveImages]
    rw [ih]
    simp [stageAssignments_append, stageAssignments_msg]

theorem sa_generateImage (o : ImgOutcome) (i : Nat) (d : String) (a : Acc) :
    stageAssignments (generateImage o i d a).events = stageAssignments a.events := by
  cases o <;> simp [generateImage, sa_emit, sa_saveImages]

theorem sa_scenesLoop (ag : Agents) (ap : String) :
    ∀ (ps : List JsonVal) (idx : Nat) (a : Acc),
      stageAssignments (scenesLoop ag ap idx ps a).events
        = stageAssignments a.events := by
  intro ps
  induction ps with
  | nil =>
    intro idx a
    rfl
  | cons p rest ih =>
    intro idx a
    simp only [scenesLoop]
    rw [ih, sa_generateImage]

theorem sa_imageGeneratorRun (ag : Agents) (a b : Acc)
    (h : imageGeneratorRun ag a = .ok b ∨ imageGeneratorRun ag a = .error b) :
    stageAssignments b.events = stageAssignments a.events := by
  simp only [imageGeneratorRun] at h
  rcases h with h | h <;>
    (split at h <;> ((try split at h) <;> ((try split at h) <;>
      (first
        | (injection h with hb
           subst hb
           simp [sa_emit, sa_crash, sa_scenesLoop])
        | injection h))))

theorem sa_themeApprovedAdvance (ag : Agents) (a b : Acc)
    (h : themeApprovedAdvance ag a = .ok b ∨ themeApprovedAdvance ag a = .error b) :
    stageAssignments b.events
        = stageAssignments a.events ++ [WorkflowStage.RESEARCH]
    ∨ stageAssignments b.events
        = stageAssignments a.events
          ++ [WorkflowStage.RESEARCH, WorkflowStage.SCRIPT_CREATION] := by
  simp only [themeApprovedAdvance] at h
  cases hS : setupAssetsFolder (emit (setStage a .RESEARCH) selfName
      "Theme approved! Moving to research...") with
  | error c =>
    rw [hS] at h
    rcases h with h | h
    · simp at h
    · left
      have hc := sa_setupAssetsFolder _ c (Or.inr hS)
      dsimp only at h
      injection h with hb
      subst hb
      rw [hc, sa_emit, sa_setStage]
  | ok c =>
    rw [hS] at h
    rcases h with h | h
    · right
      have hc := sa_setupAssetsFolder _ c (Or.inl hS)
      dsimp only at h
      injection h with hb
      subst hb
      simp [sa_draftScriptAndAsk, sa_emit, sa_setStage, sa_runSubAgent, hc]
    · simp at h

theorem sa_scriptApprovedAdvance (ag : Agents) (a b : Acc)
    (h : scriptApprovedAdvance ag a = .ok b ∨ scriptApprovedAdvance ag a = .error b) :
    stageAssignments b.events
      = stageAssignments a.events ++ [WorkflowStage.ASSET_GENERATION] := by
  simp only [scriptApprovedAdvance] at h
  rcases h with h | h
  · split at h
    · exact absurd h (by simp)
    · rename_i c hig
      injection h with hb
      subst hb
      have hc := sa_imageGeneratorRun ag _ c (Or.inl hig)
      simp [sa_emit, hc, sa_runSubAgent, sa_setStage]
  · split at h
    · rename_i c hig
      injection h with hb
      subst hb
      have hc := sa_imageGeneratorRun ag _ c (Or.inr hig)
      simp [sa_emit, hc, sa_runSubAgent, sa_setStage]
    · exact absurd h (by simp)

/-- The stage assignments of one body run: none at all, or the THEME
approval pair, or the SCRIPT approval singleton — each only from its own
starting stage. -/
theorem sa_runBody (ag : Agents) (a0 : Acc) :
    stageAssignments ((flowAcc (runBody ag a0)).events) = stageAssignments a0.events
    ∨ (effStage a0.state = .THEME_DEFINITION
      ∧ (stageAssignments ((flowAcc (runBody ag a0)).events)
            = stageAssignments a0.events ++ [WorkflowStage.RESEARCH]
        ∨ stageAssignments ((flowAcc (runBody ag a0)).events)
            = stageAssignments a0.events
              ++ [WorkflowStage.RESEARCH, WorkflowStage.SCRIPT_CREATION]))
    ∨ (effStage a0.state = .SCRIPT_CREATION
      ∧ stageAssignments ((flowAcc (runBody ag a0)).events)
          = stageAssignments a0.events ++ [WorkflowStage.ASSET_GENERATION]) := by
  cases hst : effStage a0.state with
  | THEME_DEFINITION =>
    simp only [runBody, hst]
    by_cases h1 : truthy a0.state.theme_intent = false
    · rw [if_pos h1]
      split
      · rename_i c hd
        left
        dsimp only [flowAcc]
        exact sa_defineThemeAndAsk ag _ c (Or.inl hd)
      · rename_i c hd
        left
        dsimp only [flowAcc]
        exact sa_defineThemeAndAsk ag _ c (Or.inr hd)
    · rw [if_neg h1]
      by_cases h2 : a0.state.user_responded_to_theme = false
      · rw [if_pos h2]
        by_cases h3 : truthy a0.state.feedback = true
        · rw [if_pos h3]
          by_cases h4 : truthy (parseJsonResponse a0.state.feedback) = true
          · rw [if_pos h4]
            cases hg : pyDictGet (parseJsonResponse a0.state.feedback)
                "user_input" (.str "") with
            | error e =>
              left
              simp [flowAcc, sa_crash, sa_runSubAgent]
            | ok u =>
              dsimp only
              cases happ : isUserApproval u with
              | error e =>
                left
                simp [flowAcc, sa_crash, sa_runSubAgent]
              | ok ap2 =>
                dsimp only
                cases ap2 with
                | true =>
                  rw [if_pos rfl]
                  split
                  · rename_i c hta
                    dsimp only [flowAcc]
                    rcases sa_themeApprovedAdvance ag _ c (Or.inr hta) with h5 | h5
                    · refine Or.inr (Or.inl ⟨by trivial, Or.inl ?_⟩)
                      rw [h5]
                      simp [sa_runSubAgent]
                    · refine Or.inr (Or.inl ⟨by trivial, Or.inr ?_⟩)
                      rw [h5]
                      simp [sa_runSubAgent]
                  · rename_i c hta
                    dsimp only [flowAcc]
                    rcases sa_themeApprovedAdvance ag _ c (Or.inl hta) with h5 | h5
                    · refine Or.inr (Or.inl ⟨by trivial, Or.inl ?_⟩)
                      rw [h5]
                      simp [sa_runSubAgent]
                    · refine Or.inr (Or.inl ⟨by trivial, Or.inr ?_⟩)
                      rw [h5]
                      simp [sa_runSubAgent]
                | false =>
                  rw [if_neg (by simp)]
                  split
                  · rename_i c hd
                    left
                    dsimp only [flowAcc]
                    rw [sa_defineThemeAndAsk ag _ c (Or.inl hd)]
                    simp [sa_emit, sa_runSubAgent]
                  · rename_i c hd
                    left
                    dsimp only [flowAcc]
                    rw [sa_defineThemeAndAsk ag _ c (Or.inr hd)]
                    simp [sa_emit, sa_runSubAgent]
          · rw [if_neg h4]
            left
            simp [flowAcc, sa_runSubAgent]
        · rw [if_neg h3]
          split
          · rename_i c hd
            left
            dsimp only [flowAcc]
            exact sa_defineThemeAndAsk ag _ c (Or.inl hd)
          · rename_i c hd
            left
            dsimp only [flowAcc]
            exact sa_defineThemeAndAsk ag _ c (Or.inr hd)
      · rw [if_neg h2]
        exact Or.inl rfl
  | RESEARCH =>
    simp only [runBody, hst]
    exact Or.inl rfl
  | ASSET_GENERATION =>
    simp only [runBody, hst]
    exact Or.inl rfl
  | SCRIPT_CREATION =>
    simp only [runBody, hst]
    by_cases h2 : a0.state.user_responded_to_script = false
    · rw [if_pos h2]
      by_cases h3 : truthy a0.state.feedback = true
      · rw [if_pos h3]
        by_cases h4 : truthy (parseJsonResponse a0.state.feedback) = true
        · rw [if_pos h4]
          cases hg : pyDictGet (parseJsonResponse a0.state.feedback)
              "user_input" (.str "") with
          | error e =>
            left
            simp [flowAcc, sa_crash, sa_runSubAgent]
          | ok u =>
            dsimp only
            cases happ : isUserApproval u with
            | error e =>
              left
              simp [flowAcc, sa_crash, sa_runSubAgent]
            | ok ap2 =>
              dsimp only
              cases ap2 with
              | true =>
                rw [if_pos rfl]
                split
                · rename_i c hsc
                  dsimp only [flowAcc]
                  refine Or.inr (Or.inr ⟨by trivial, ?_⟩)
                  rw [sa_scriptApprovedAdvance ag _ c (Or.inr hsc)]
                  simp [sa_runSubAgent]
                · rename_i c hsc
                  dsimp only [flowAcc]
                  refine Or.inr (Or.inr ⟨by trivial, ?_⟩)
                  rw [sa_scriptApprovedAdvance ag _ c (Or.inl hsc)]
                  simp [sa_runSubAgent]
              | false =>
                rw [if_neg (by simp)]
                left
                simp [flowAcc, sa_draftScriptAndAsk, sa_emit, sa_runSubAgent]
        · rw [if_neg h4]
          left
          simp [flowAcc, sa_runSubAgent]
      · rw [if_neg h3]
        left
        simp [flowAcc, sa_draftScriptAndAsk]
    · rw [if_neg h2]
      exact Or.inl rfl

/-- C3: in every turn, the workflow-stage assignments the controller
performs are monotonically non-decreasing in pipeline order starting
from the turn's effective stage (THEME ≤ RESEARCH ≤ SCRIPT ≤ ASSETS);
a rejection performs no assignment at all. -/
theorem C3_stage_monotone (ag : Agents) (s : SessionState) (fs : List String) :
    List.Chain' (fun x y => WorkflowStage.pos x ≤ WorkflowStage.pos y)
      (effStage s :: stageAssignments (runTurn ag s fs).events) := by
  have h := sa_runBody ag { state := s, fs := fs, events := [] }
  dsimp only at h
  rw [stageAssignments_nil] at h
  simp only [List.nil_append] at h
  unfold runTurn
  cases hrb : runBody ag { state := s, fs := fs, events := [] } with
  | error b =>
    rw [hrb] at h
    dsimp only [flowAcc] at h
    dsimp only
    rcases h with h | ⟨hstg, h | h⟩ | ⟨hstg, h⟩
    · rw [h]
      simp
    · rw [h, hstg]
      simp [List.chain'_cons, List.chain'_singleton, WorkflowStage.pos]
    · rw [h, hstg]
      simp [List.chain'_cons, List.chain'_singleton, WorkflowStage.pos]
    · rw [h, hstg]
      simp [List.chain'_cons, List.chain'_singleton, WorkflowStage.pos]
  | ok f =>
    cases f with
    | ret b =>
      rw [hrb] at h
      dsimp only [flowAcc] at h
      dsimp only
      rcases h with h | ⟨hstg, h | h⟩ | ⟨hstg, h⟩
      · rw [h]
        simp
      · rw [h, hstg]
        simp [List.chain'_cons, List.chain'_singleton, WorkflowStage.pos]
      · rw [h, hstg]
        simp [List.chain'_cons, List.chain'_singleton, WorkflowStage.pos]
      · rw [h, hstg]
        simp [List.chain'_cons, List.chain'_singleton, WorkflowStage.pos]
    | fall b =>
      rw [hrb] at h
      dsimp only [flowAcc] at h
      dsimp only
      rw [sa_emit]
      rcases h with h | ⟨hstg, h | h⟩ | ⟨hstg, h⟩
      · rw [h]
        simp
      · rw [h, hstg]
        simp [List.chain'_cons, List.chain'_singleton, WorkflowStage.pos]
      · rw [h, hstg]
        simp [List.chain'_cons, List.chain'_singleton, WorkflowStage.pos]
      · rw [h, hstg]
        simp [List.chain'_cons, List.chain'_singleton, WorkflowStage.pos]

end YTShorts
